import Mathlib

/-!
# Marlin `CardReader` (cardreader.h / cardreader.cpp)

A shallow embedding of the SD-card directory and file-session manager.

* C strings and char buffers are lists of bytes (`CStr`); a byte is a `Nat`.
* Machine integers are `Nat` with an explicit `% 2 ^ w` at every place where the
  source can wrap (`uint8_t cnt`, `uint16_t nrFiles`, `uint8_t sort_order[]`).
* C arrays that are members of the class are total functions `Nat → α`.
* The object state is the structure `State`, passed explicitly.
* The FAT driver (`SdFile`, `Sd2Card`, `SdVolume`) is not part of `cardreader.cpp`;
  it is the parameter `SdDriver`, and every theorem holds for every driver.
* Compile-time configuration (`SORT_LIMIT`, `SORT_USES_RAM`, ...) is the parameter `Config`.
* Diagnostics written to the serial line are modelled in `lsDive`, where they are the
  listing itself; the requests sent to the driver by `openFile` and `removeFile`
  are recorded in `sdlog`.
-/

namespace CardReader

/-! ## C strings -/

/-- Bytes of a char buffer or of a NUL-terminated C string. -/
abbrev CStr := List Nat

/-- The C string held in a buffer: the bytes before the first NUL. -/
def cstr (buf : List Nat) : CStr := buf.takeWhile (fun c => c != 0)

/-- The first char `s[0]` of a buffer: the terminating NUL when the string is empty. -/
def char0 (s : CStr) : Nat :=
  match s with
  | [] => 0
  | c :: _ => c

/-- A string literal as bytes. -/
def str (s : String) : CStr := s.toList.map Char.toNat

/-- The libc function tolower on the C locale: maps A..Z to a..z. -/
def tolower (c : Nat) : Nat := if 65 ≤ c ∧ c ≤ 90 then c + 32 else c

/-- Comparison loop of strcasecmp on two C strings without NUL bytes:
the difference of the first pair of bytes that differ after tolower. -/
def strcasecmpAux : CStr → CStr → Int
  | [], [] => 0
  | [], b :: _ => 0 - (tolower b : Int)
  | a :: _, [] => (tolower a : Int)
  | a :: as, b :: bs =>
    if tolower a = tolower b then strcasecmpAux as bs
    else (tolower a : Int) - (tolower b : Int)

/-- The libc function strcasecmp: both arguments are read up to their first NUL. -/
def strcasecmp (s1 s2 : CStr) : Int := strcasecmpAux (cstr s1) (cstr s2)

/-! ## Raw directory entries (SdFatStructs.h) -/

/-- The FAT directory entry `dir_t`: the 11 bytes of the 8.3 name and the attribute byte. -/
structure dir_t where
  name : List Nat
  attributes : Nat
deriving DecidableEq, Repr

/-- `p.name[i]` (a byte that is not there reads as 0). -/
def dir_t.nameAt (p : dir_t) (i : Nat) : Nat := p.name.getD i 0

/-- Modelled from the spec: the FAT constants of SdFatStructs.h, which is not under src/:
the marker of the end of the allocated entries ("free" marker). -/
def DIR_NAME_FREE : Nat := 0x00

/-- Modelled from the spec: the marker of a deleted entry (SdFatStructs.h). -/
def DIR_NAME_DELETED : Nat := 0xE5

/-- Modelled from the spec: attribute bit of a hidden entry (SdFatStructs.h). -/
def DIR_ATT_HIDDEN : Nat := 0x02

/-- Modelled from the spec: attribute bit of a volume label (SdFatStructs.h). -/
def DIR_ATT_VOLUME_ID : Nat := 0x08

/-- Modelled from the spec: attribute bit of a directory (SdFatStructs.h). -/
def DIR_ATT_DIRECTORY : Nat := 0x10

/-- Modelled from the spec: mask of the two type bits (SdFatStructs.h). -/
def DIR_ATT_FILE_TYPE_MASK : Nat := DIR_ATT_VOLUME_ID ||| DIR_ATT_DIRECTORY

/-- Modelled from the spec: the is_directory flag of an entry, the test DIR_IS_SUBDIR
of SdFatStructs.h. -/
def DIR_IS_SUBDIR (p : dir_t) : Bool :=
  p.attributes &&& DIR_ATT_FILE_TYPE_MASK == DIR_ATT_DIRECTORY

/-- Modelled from the spec: the entry is a file or a subdirectory (not a volume label),
the test DIR_IS_FILE_OR_SUBDIR of SdFatStructs.h. -/
def DIR_IS_FILE_OR_SUBDIR (p : dir_t) : Bool :=
  p.attributes &&& DIR_ATT_VOLUME_ID == 0

/-- Modelled from the spec: what one successful call of `readDir(p, longFilename)`
delivers: the raw record and the long name (empty when the entry has none). -/
structure DirEntry where
  p : dir_t
  longFilename : CStr
deriving DecidableEq, Repr

/-- Modelled from the spec: an `SdFile` object is closed (`none`) or open on the object
the driver knows under a handle. -/
abbrev SdFile := Option Nat

/-- The two ways `cardreader.cpp` opens an `SdFile`. -/
inductive OFlag where
  | O_READ
  | O_CREAT_APPEND_WRITE_TRUNC
deriving DecidableEq, Repr

/-- A request sent to the driver by the path resolver. -/
inductive SdCall where
  | openCall (dirFile : SdFile) (path : CStr) (oflag : OFlag)
  | removeCall (dirFile : SdFile) (path : CStr)
deriving DecidableEq, Repr

/-- Modelled from the spec: the storage/FAT collaborator (SdFile.h is not under src/),
over a volume state `V`. Every function is an arbitrary parameter. -/
structure SdDriver (V : Type) where
  /-- the entries that successive `readDir` calls yield on an open directory after `rewind` -/
  readDir : V → Nat → List DirEntry
  /-- `self.open(dirFile, path, oflag)`: the handle opened, `none` when it returns false,
  and the volume afterwards -/
  sdOpen : V → SdFile → SdFile → CStr → OFlag → Option Nat × V
  /-- `SdFile::remove(dirFile, path)`: whether it succeeded, and the volume afterwards -/
  sdRemove : V → SdFile → CStr → Bool × V
  /-- `fileSize()` of an open file -/
  fileSize : V → Nat → Nat
  /-- the name that `getFilename(t)` writes at `t` -/
  getFilename : V → SdFile → CStr
  /-- `seekSet(pos)` -/
  seekSet : V → SdFile → Nat → SdFile

/-! ## Configuration and state -/

/-- A line that `lsDive` writes to the serial port: the path of a listed entry
(`SERIAL_PROTOCOL(prepend); SERIAL_PROTOCOLLN(filename)`), or the report
`MSG_SD_CANT_OPEN_SUBDIR` followed by the name of the folder. -/
inductive SerialLine where
  | listed (path : CStr)
  | cantOpenSubdir (name : CStr)
deriving DecidableEq, Repr

/-- enum.h: the action of `lsDive`. -/
inductive LsAction where
  | LS_SerialPrint
  | LS_Count
  | LS_GetFilename
deriving DecidableEq, Repr

/-- Compile-time configuration read by `cardreader.cpp` (Configuration headers are not
under src/). -/
structure Config where
  SDCARD_SORT_ALPHA : Bool
  SORT_LIMIT : Nat
  SORT_USES_RAM : Bool
  SORT_USES_MORE_RAM : Bool
  SORT_ONOFF : Bool
  FOLDER_SORTING : Int
  SD_FINISHED_STEPPERRELEASE : Bool
  SD_FINISHED_RELEASECOMMAND : CStr

/-- `#define MAX_DIR_DEPTH 10` -/
def MAX_DIR_DEPTH : Nat := 10

/-- `#define SD_PROCEDURE_DEPTH 1` -/
def SD_PROCEDURE_DEPTH : Nat := 1

/-- Modelled from the spec: size of a short-filename buffer (8.3 name and its NUL),
defined in SdFatConfig.h, which is not under src/. -/
def FILENAME_LENGTH : Nat := 13

/-- `#define MAXPATHNAMELENGTH (FILENAME_LENGTH*MAX_DIR_DEPTH + MAX_DIR_DEPTH + 1)` -/
def MAXPATHNAMELENGTH : Nat := FILENAME_LENGTH * MAX_DIR_DEPTH + MAX_DIR_DEPTH + 1

/-- The members of `class CardReader`, followed by the part of the environment that the
methods act on. -/
structure State (V : Type) where
  saving : Bool
  logging : Bool
  sdprinting : Bool
  cardOK : Bool
  filenameIsDir : Bool
  filename : CStr
  longFilename : CStr
  autostart_index : Int
  root : SdFile
  curDir : SdFile
  workDir : SdFile
  workDirParents : Nat → SdFile
  workDirDepth : Nat
  sort_count : Nat
  sort_alpha : Bool
  sort_folders : Int
  sort_order : Nat → Nat
  sortshort : Nat → CStr
  sortnames : Nat → CStr
  isDir : Nat → Nat
  file : SdFile
  file_subcall_ctr : Nat
  filespos : Nat → Nat
  proc_filenames : Nat → CStr
  filesize : Nat
  sdpos : Nat
  next_autostart_ms : Nat
  autostart_stilltocheck : Bool
  lsAction : LsAction
  nrFiles : Nat
  /-- the volume behind the driver -/
  vol : V
  /-- lines written to the serial port by the listing -/
  serial : List SerialLine
  /-- `kill()` has been called -/
  killed : Bool
  /-- a write past the end of a local buffer has happened: what the compiled program does
  from there on is not defined by the source -/
  overrun : Bool
  /-- requests sent to the driver by the path resolver, oldest first -/
  sdlog : List SdCall
  /-- commands handed to `enqueue_and_echo_commands_P` -/
  queue : List CStr
  /-- text handed to `lcd_setstatus` -/
  lcd_status : CStr
  /-- `print_job_timer` is running -/
  timer_running : Bool
  /-- what `print_job_timer.duration()` returns -/
  timer_duration : Nat

/-! ## Entry codec -/

/-- The bytes `createFilename` stores before the terminating NUL, from `p.name[i]` on. -/
def createFilenameFrom (p : dir_t) : Nat → Nat → List Nat
  | 0, _ => []
  | n + 1, i =>
    if p.nameAt i = 32 then createFilenameFrom p n (i + 1)
    else if i = 8 then 46 :: p.nameAt i :: createFilenameFrom p n (i + 1)
    else p.nameAt i :: createFilenameFrom p n (i + 1)

/-- `createFilename(buffer, p)`: the C string left in `buffer`. -/
def createFilename (p : dir_t) : CStr := cstr (createFilenameFrom p 11 0)

/-! ## Directory traversal -/

/-- The loop `while (parent.readDir(p, longFilename) > 0)` of `lsDive` on the entries
that `parent` has not delivered yet. `dive path dir` is the recursive call
`lsDive(path, dir)`, `pos` is the number of entries read so far and `cnt` the local
counter. The second component of the result is `some pos` when the function left through
a `return` while at the entry number `pos`, and `none` when the loop ended (`readDir`
exhausted, or `break` at the free marker). -/
def lsDiveLoop {V : Type} (drv : SdDriver V) (dive : CStr → SdFile → State V → State V)
    (prepend : CStr) (parent : SdFile) (mtch : Option CStr) :
    List DirEntry → Nat → Nat → State V → State V × Option Nat
  | [], _, _, s => ({ s with longFilename := [] }, none)
  | e :: rest, pos, cnt, s0 =>
    let p := e.p
    -- readDir stores the long name of the entry
    let s : State V := { s0 with longFilename := e.longFilename }
    if DIR_IS_SUBDIR p && s.lsAction != LsAction.LS_Count
        && s.lsAction != LsAction.LS_GetFilename then
      let lfilename := createFilename p
      let path := (if char0 prepend = 0 then str "/" else cstr prepend) ++ lfilename ++ str "/"
      -- SdFile dir; dir.open(parent, lfilename, O_READ)
      let r := drv.sdOpen s.vol none parent lfilename OFlag.O_READ
      let s1 : State V :=
        { s with vol := r.2, sdlog := s.sdlog ++ [SdCall.openCall parent lfilename OFlag.O_READ] }
      let s2 : State V :=
        if r.1.isNone then
          (if s1.lsAction = LsAction.LS_SerialPrint then
            { s1 with serial := s1.serial ++ [SerialLine.cantOpenSubdir lfilename] }
          else s1)
        else s1
      lsDiveLoop drv dive prepend parent mtch rest (pos + 1) cnt (dive path r.1 s2)
    else
      let pn0 := p.nameAt 0
      if pn0 = DIR_NAME_FREE then (s, none)
      else if pn0 = DIR_NAME_DELETED || pn0 = 46 then
        lsDiveLoop drv dive prepend parent mtch rest (pos + 1) cnt s
      else if char0 s.longFilename = 46 then
        lsDiveLoop drv dive prepend parent mtch rest (pos + 1) cnt s
      else if !DIR_IS_FILE_OR_SUBDIR p || (p.attributes &&& DIR_ATT_HIDDEN != 0) then
        lsDiveLoop drv dive prepend parent mtch rest (pos + 1) cnt s
      else
        let s1 : State V := { s with filenameIsDir := DIR_IS_SUBDIR p }
        if !s1.filenameIsDir && (p.nameAt 8 != 71 || p.nameAt 9 == 126) then
          lsDiveLoop drv dive prepend parent mtch rest (pos + 1) cnt s1
        else
          match s1.lsAction with
          | LsAction.LS_Count =>
            lsDiveLoop drv dive prepend parent mtch rest (pos + 1) cnt
              { s1 with nrFiles := (s1.nrFiles + 1) % 2 ^ 16 }
          | LsAction.LS_SerialPrint =>
            let s2 : State V := { s1 with filename := createFilename p }
            lsDiveLoop drv dive prepend parent mtch rest (pos + 1) cnt
              { s2 with serial := s2.serial ++ [SerialLine.listed (cstr prepend ++ s2.filename)] }
          | LsAction.LS_GetFilename =>
            let s2 : State V := { s1 with filename := createFilename p }
            match mtch with
            | some m =>
              if strcasecmp m s2.filename = 0 then (s2, some pos)
              else lsDiveLoop drv dive prepend parent mtch rest (pos + 1) ((cnt + 1) % 2 ^ 8) s2
            | none =>
              if cnt = s2.nrFiles then (s2, some pos)
              else lsDiveLoop drv dive prepend parent mtch rest (pos + 1) ((cnt + 1) % 2 ^ 8) s2

/-- The entries that `readDir` delivers on an `SdFile` read from its start; on a closed
`SdFile` `readDir` fails. -/
def SdDriver.entries {V : Type} (drv : SdDriver V) (vol : V) : SdFile → Option (List DirEntry)
  | none => none
  | some h => some (drv.readDir vol h)

/-- `lsDive(prepend, parent, match)` on a `parent` read from its start, with the place
of the early return (see `lsDiveLoop`). The source recurses into folders without a bound;
`depth` bounds the nesting of the folders that are read: a folder met at depth 0 is
opened and not read. The actions `LS_Count` and `LS_GetFilename` enter no folder. -/
def lsDiveAt {V : Type} (drv : SdDriver V) :
    Nat → CStr → SdFile → Option CStr → State V → State V × Option Nat
  | 0, prepend, parent, mtch, s =>
    match drv.entries s.vol parent with
    | none => (s, none)
    | some es => lsDiveLoop drv (fun _ _ s1 => s1) prepend parent mtch es 0 0 s
  | depth + 1, prepend, parent, mtch, s =>
    match drv.entries s.vol parent with
    | none => (s, none)
    | some es =>
      lsDiveLoop drv (fun path dir s1 => (lsDiveAt drv depth path dir none s1).1)
        prepend parent mtch es 0 0 s

/-- `void CardReader::lsDive(const char *prepend, SdFile parent, const char * const match)` -/
def lsDive {V : Type} (drv : SdDriver V) (depth : Nat) (prepend : CStr) (parent : SdFile)
    (mtch : Option CStr) (s : State V) : State V :=
  (lsDiveAt drv depth prepend parent mtch s).1

/-- `void CardReader::ls()` -/
def ls {V : Type} (drv : SdDriver V) (depth : Nat) (s : State V) : State V :=
  let s1 : State V := { s with lsAction := LsAction.LS_SerialPrint }
  lsDive drv depth [] s1.root none s1

/-- The loop `while (nr < sort_count)` of `getfilename` that looks `match` up in the
cached short names; `n` bounds the number of rounds. -/
def getfilenameScan {V : Type} (s : State V) (m : CStr) : Nat → Nat → Nat
  | 0, nr => nr
  | n + 1, nr =>
    if nr < s.sort_count then
      (if strcasecmp m (s.sortshort nr) = 0 then nr else getfilenameScan s m n (nr + 1))
    else nr

/-- The part of `getfilename` that reads the storage: `curDir = &workDir;
lsAction = LS_GetFilename; nrFiles = nr; curDir->rewind(); lsDive("", *curDir, match)`,
with the place where `lsDive` returned early. -/
def getfilenameDive {V : Type} (drv : SdDriver V) (nr : Nat) (mtch : Option CStr)
    (s : State V) : State V × Option Nat :=
  let s1 : State V :=
    { s with curDir := s.workDir, lsAction := LsAction.LS_GetFilename, nrFiles := nr % 2 ^ 16 }
  lsDiveAt drv 0 [] s1.curDir mtch s1

/-- `void CardReader::getfilename(uint16_t nr, const char * const match)` -/
def getfilename {V : Type} (cfg : Config) (drv : SdDriver V) (nr : Nat) (mtch : Option CStr)
    (s : State V) : State V :=
  if cfg.SDCARD_SORT_ALPHA && cfg.SORT_USES_RAM && cfg.SORT_USES_MORE_RAM then
    let nr1 :=
      match mtch with
      | some m => getfilenameScan s m (s.sort_count - nr % 2 ^ 16) (nr % 2 ^ 16)
      | none => nr % 2 ^ 16
    if nr1 < s.sort_count then
      { s with
        filename := cstr (s.sortshort nr1)
        longFilename := cstr (s.sortnames nr1)
        filenameIsDir := (s.isDir (nr1 >>> 3) &&& (1 <<< (nr1 &&& 0x07)) != 0) }
    else (getfilenameDive drv nr1 mtch s).1
  else (getfilenameDive drv nr mtch s).1

/-- `uint16_t CardReader::getnrfilenames()`: the value returned and the state afterwards. -/
def getnrfilenames {V : Type} (drv : SdDriver V) (s : State V) : Nat × State V :=
  let s1 : State V :=
    { s with curDir := s.workDir, lsAction := LsAction.LS_Count, nrFiles := 0 }
  let s2 := lsDive drv 0 [] s1.curDir none s1
  (s2.nrFiles, s2)

/-! ## Sort engine -/

/-- `#define LONGEST_FILENAME (longFilename[0] ? longFilename : filename)` -/
def LONGEST_FILENAME {V : Type} (s : State V) : CStr :=
  if char0 s.longFilename ≠ 0 then s.longFilename else s.filename

/-- `void CardReader::flush_presort()`; the heap blocks that it frees are not modelled. -/
def flush_presort {V : Type} (s : State V) : State V :=
  if s.sort_count > 0 then { s with sort_count := 0 } else s

/-- The value of `cmp` in the tiers with `SORT_USES_RAM`, for the entries with the raw
indices `o1` and `o2`: the names come from `sortnames` and the folder flags from the bits
of `isDir`. -/
def presortCmpRam {V : Type} (cfg : Config) (s : State V) (o1 o2 : Nat) : Bool :=
  let ind1 := o1 >>> 3
  let mod1 := o1 &&& 0x07
  let mask1 := 1 <<< mod1
  let ind2 := o2 >>> 3
  let mod2 := o2 &&& 0x07
  let mask2 := 1 <<< mod2
  if cfg.FOLDER_SORTING ≠ 0 || cfg.SORT_ONOFF then
    if cfg.SORT_ONOFF then
      if s.sort_folders ≠ 0 then
        (if ((s.isDir ind1 &&& mask1) != 0) == ((s.isDir ind2 &&& mask2) != 0) then
          decide (strcasecmp (s.sortnames o1) (s.sortnames o2) > 0)
        else
          (s.isDir (if s.sort_folders > 0 then ind1 else ind2)
            &&& (if s.sort_folders > 0 then mask1 else mask2)) != 0)
      else decide (strcasecmp (s.sortnames o1) (s.sortnames o2) > 0)
    else
      (if ((s.isDir ind1 &&& mask1) != 0) == ((s.isDir ind2 &&& mask2) != 0) then
        decide (strcasecmp (s.sortnames o1) (s.sortnames o2) > 0)
      else
        (s.isDir (if cfg.FOLDER_SORTING > 0 then ind1 else ind2)
          &&& (if cfg.FOLDER_SORTING > 0 then mask1 else mask2)) != 0)
  else decide (strcasecmp (s.sortnames o1) (s.sortnames o2) > 0)

/-- The comparison of the bubble sort for the entries `o1` and `o2`: the value of `cmp`
and the state afterwards. With `SORT_USES_RAM` the names and folder bits come from the
arrays filled before; without it both names are read from the storage again. -/
def presortCmp {V : Type} (cfg : Config) (drv : SdDriver V) (o1 o2 : Nat) (s : State V) :
    Bool × State V :=
  if cfg.SORT_USES_RAM then (presortCmpRam cfg s o1 o2, s)
  else
    let sa := getfilename cfg drv o1 none s
    let name1 := cstr (LONGEST_FILENAME sa)
    let dir1 := sa.filenameIsDir
    let sb := getfilename cfg drv o2 none sa
    let name2 := LONGEST_FILENAME sb
    let cmp :=
      if cfg.FOLDER_SORTING ≠ 0 || cfg.SORT_ONOFF then
        if cfg.SORT_ONOFF then
          if sb.sort_folders ≠ 0 then
            (if dir1 == sb.filenameIsDir then decide (strcasecmp name1 name2 > 0)
            else (if sb.sort_folders > 0 then dir1 else !dir1))
          else decide (strcasecmp name1 name2 > 0)
        else
          (if dir1 == sb.filenameIsDir then decide (strcasecmp name1 name2 > 0)
          else (if cfg.FOLDER_SORTING > 0 then dir1 else !dir1))
      else decide (strcasecmp name1 name2 > 0)
    (cmp, sb)

/-- The loop `for (uint16_t i = 0; i < fileCnt; i++)` of `presort` that initialises the
sort order and, with `SORT_USES_RAM`, reads all the names; `n` rounds are left. In the
tier with `SORT_USES_RAM` and without `SORT_USES_MORE_RAM` the arrays `sortnames` and
`isDir` are locals of `presort`; the model keeps them in the fields of the same name. -/
def presortInit {V : Type} (cfg : Config) (drv : SdDriver V) : Nat → Nat → State V → State V
  | 0, _, s => s
  | n + 1, i, s =>
    let s1 : State V := { s with sort_order := Function.update s.sort_order i (i % 2 ^ 8) }
    let s2 : State V :=
      if cfg.SORT_USES_RAM then
        let sa := getfilename cfg drv i none s1
        let sb : State V :=
          { sa with sortnames := Function.update sa.sortnames i (cstr (LONGEST_FILENAME sa)) }
        let sc : State V :=
          if cfg.SORT_USES_MORE_RAM then
            { sb with sortshort := Function.update sb.sortshort i (cstr sb.filename) }
          else sb
        if cfg.FOLDER_SORTING ≠ 0 || cfg.SORT_ONOFF then
          let md := i &&& 0x07
          let ind := i >>> 3
          let sd : State V :=
            if md = 0 then { sc with isDir := Function.update sc.isDir ind 0x00 } else sc
          if sd.filenameIsDir then
            { sd with isDir := Function.update sd.isDir ind ((sd.isDir ind ||| 1 <<< md) % 2 ^ 8) }
          else sd
        else sc
      else s1
    presortInit cfg drv n (i + 1) s2

/-- The inner loop `for (uint16_t j = 0; j < i; ++j)` of the bubble sort, with `n` rounds
left: the state and `didSwap` afterwards. -/
def presortInner {V : Type} (cfg : Config) (drv : SdDriver V) :
    Nat → Nat → State V → Bool → State V × Bool
  | 0, _, s, didSwap => (s, didSwap)
  | n + 1, j, s, didSwap =>
    let o1 := s.sort_order j
    let o2 := s.sort_order (j + 1)
    let r := presortCmp cfg drv o1 o2 s
    if r.1 then
      presortInner cfg drv n (j + 1)
        { r.2 with
          sort_order :=
            Function.update (Function.update r.2.sort_order j (o2 % 2 ^ 8)) (j + 1) (o1 % 2 ^ 8) }
        true
    else presortInner cfg drv n (j + 1) r.2 didSwap

/-- The outer loop `for (uint16_t i = fileCnt; --i;)` of the bubble sort, entered with `i`
holding the first argument; `presort` enters it with `fileCnt > 1`, so that `--i` does not
wrap. -/
def presortOuter {V : Type} (cfg : Config) (drv : SdDriver V) : Nat → State V → State V
  | 0, s => s
  | i + 1, s =>
    if i = 0 then s
    else
      let r := presortInner cfg drv i 0 s false
      if !r.2 then r.1 else presortOuter cfg drv i r.1

/-- `void CardReader::presort()` -/
def presort {V : Type} (cfg : Config) (drv : SdDriver V) (s : State V) : State V :=
  let s0 := flush_presort s
  let r := getnrfilenames drv s0
  let s1 := r.2
  if r.1 > 0 then
    let fileCnt := if r.1 > cfg.SORT_LIMIT then cfg.SORT_LIMIT % 2 ^ 16 else r.1
    let s2 : State V :=
      if fileCnt > 1 then
        let sa := presortInit cfg drv fileCnt 0 s1
        if cfg.SORT_ONOFF then
          (if sa.sort_alpha then presortOuter cfg drv fileCnt sa else sa)
        else presortOuter cfg drv fileCnt sa
      else
        let sa : State V := { s1 with sort_order := Function.update s1.sort_order 0 0 }
        if cfg.SORT_USES_RAM && cfg.SORT_USES_MORE_RAM then
          let sb := getfilename cfg drv 0 none sa
          let sc : State V :=
            { sb with
              sortnames := Function.update sb.sortnames 0 (cstr (LONGEST_FILENAME sb))
              sortshort := Function.update sb.sortshort 0 (cstr sb.filename) }
          { sc with isDir := Function.update sc.isDir 0 (if sc.filenameIsDir then 0x01 else 0x00) }
        else sa
    { s2 with sort_count := fileCnt }
  else s1

/-- `void CardReader::getfilename_sorted(const uint16_t nr)` -/
def getfilename_sorted {V : Type} (cfg : Config) (drv : SdDriver V) (nr : Nat) (s : State V) :
    State V :=
  if cfg.SORT_ONOFF then
    getfilename cfg drv (if s.sort_alpha && nr < s.sort_count then s.sort_order nr else nr) none s
  else getfilename cfg drv (if nr < s.sort_count then s.sort_order nr else nr) none s

/-! ## File session and path resolver -/

/-- `bool isFileOpen()` -/
def isFileOpen {V : Type} (s : State V) : Bool := s.file.isSome

/-- `void CardReader::release()` -/
def release {V : Type} (s : State V) : State V :=
  { s with sdprinting := false, cardOK := false }

/-- `void CardReader::stopSDPrint()` -/
def stopSDPrint {V : Type} (s : State V) : State V :=
  let s1 : State V := { s with sdprinting := false }
  if isFileOpen s1 then { s1 with file := none } else s1

/-- The loop of `getAbsFilename` over the parents of the working directory, `n` rounds
left: `t` holds the chars written before the pointer `t` of the source, so that `cnt` is
its length. Each round writes the name of a parent and moves the pointer forward over
it while `cnt < MAXPATHNAMELENGTH`. -/
def getAbsFilenameLoop {V : Type} (drv : SdDriver V) (s : State V) : Nat → Nat → CStr → CStr
  | 0, _, t => t
  | n + 1, i, t =>
    let name := cstr (drv.getFilename s.vol (s.workDirParents i))
    getAbsFilenameLoop drv s n (i + 1) (t ++ name.take (MAXPATHNAMELENGTH - t.length))

/-- `void CardReader::getAbsFilename(char *t)`: the C string left at `t`. -/
def getAbsFilename {V : Type} (drv : SdDriver V) (s : State V) : CStr :=
  let t := getAbsFilenameLoop drv s s.workDirDepth 0 [47]
  if t.length < MAXPATHNAMELENGTH - FILENAME_LENGTH then
    t ++ cstr (drv.getFilename s.vol s.file)
  else t

/-- The walk `while (dirname_start != NULL)` of `openFile` and of `removeFile` over an
absolute path; `rest` is the string at `dirname_start`, `myDir` the local `SdFile`, and
`n` bounds the number of rounds (the length of the path is enough). The result is the
state, in which `curDir` is the directory reached, and the string `fname`, or `none` when
the function returned because a folder did not open. A segment of `FILENAME_LENGTH`
chars or more does not fit `char subdirname[FILENAME_LENGTH]` with its NUL: `strncpy` and
`subdirname[dirname_end - dirname_start] = 0` then write past the end of the buffer, which
is recorded in `overrun`, and the walk is not followed further. -/
def pathWalk {V : Type} (drv : SdDriver V) :
    Nat → CStr → SdFile → State V → State V × Option CStr
  | 0, rest, _, s => (s, some rest)
  | n + 1, rest, myDir, s =>
    -- dirname_end = strchr(dirname_start, '/')
    let seg := rest.takeWhile (fun c => c != 47)
    let tail := rest.dropWhile (fun c => c != 47)
    if tail ≠ [] ∧ seg ≠ [] then
      -- char subdirname[FILENAME_LENGTH]; strncpy(...); subdirname[...] = 0;
      if FILENAME_LENGTH ≤ seg.length then ({ s with overrun := true }, none)
      else
        -- myDir.open(curDir, subdirname, O_READ)
        let r := drv.sdOpen s.vol myDir s.curDir seg OFlag.O_READ
        let s1 : State V :=
          { s with vol := r.2, sdlog := s.sdlog ++ [SdCall.openCall s.curDir seg OFlag.O_READ] }
        match r.1 with
        | none => (s1, none)
        | some h => pathWalk drv n (tail.drop 1) (some h) { s1 with curDir := some h }
    else (s, some rest)

/-- The path resolution of `openFile` and of `removeFile`: `curDir = &root`, then the
walk for a name that starts with the separator and `curDir = &workDir` for any other
name. -/
def resolvePath {V : Type} (drv : SdDriver V) (name : CStr) (s : State V) :
    State V × Option CStr :=
  let s1 : State V := { s with curDir := s.root }
  if char0 name = 47 then pathWalk drv name.length (name.drop 1) none s1
  else ({ s1 with curDir := s1.workDir }, some name)

/-- The part of `openFile` from `stopSDPrint()` on: the path is resolved and the file
is opened for reading or for writing. -/
def openFileFrom {V : Type} (cfg : Config) (drv : SdDriver V) (name : CStr) (read : Bool)
    (s1 : State V) : State V :=
  let s2 := stopSDPrint s1
  match resolvePath drv name s2 with
  | (s3, none) => s3
  | (s3, some fname) =>
    if read then
      let r := drv.sdOpen s3.vol s3.file s3.curDir fname OFlag.O_READ
      let s4 : State V :=
        { s3 with
          vol := r.2, file := r.1
          sdlog := s3.sdlog ++ [SdCall.openCall s3.curDir fname OFlag.O_READ] }
      match r.1 with
      | some h =>
        let s5 : State V := { s4 with filesize := drv.fileSize s4.vol h % 2 ^ 32, sdpos := 0 }
        let s6 := getfilename cfg drv 0 (some fname) s5
        { s6 with
          lcd_status := if char0 s6.longFilename ≠ 0 then cstr s6.longFilename else fname }
      | none => s4
    else
      let r := drv.sdOpen s3.vol s3.file s3.curDir fname OFlag.O_CREAT_APPEND_WRITE_TRUNC
      let s4 : State V :=
        { s3 with
          vol := r.2, file := r.1
          sdlog :=
            s3.sdlog ++ [SdCall.openCall s3.curDir fname OFlag.O_CREAT_APPEND_WRITE_TRUNC] }
      match r.1 with
      | none => s4
      | some _ => { s4 with saving := true, lcd_status := fname }

/-- `void CardReader::openFile(char* name, bool read, bool push_current)` -/
def openFile {V : Type} (cfg : Config) (drv : SdDriver V) (name : CStr) (read : Bool)
    (push_current : Bool) (s : State V) : State V :=
  if !s.cardOK then s
  else if isFileOpen s && push_current && decide (s.file_subcall_ctr > SD_PROCEDURE_DEPTH - 1) then
    -- kill(PSTR(MSG_KILLED)); return;
    { s with killed := true }
  else
    let s1 : State V :=
      if isFileOpen s then
        if push_current then
          -- Store current filename and position
          { s with
            proc_filenames :=
              Function.update s.proc_filenames s.file_subcall_ctr (getAbsFilename drv s)
            filespos := Function.update s.filespos s.file_subcall_ctr s.sdpos
            file_subcall_ctr := (s.file_subcall_ctr + 1) % 2 ^ 8 }
        else s
      else
        -- Opening fresh file: reset procedure depth
        { s with file_subcall_ctr := 0 }
    openFileFrom cfg drv name read s1

/-- `void CardReader::openLogFile(char* name)` -/
def openLogFile {V : Type} (cfg : Config) (drv : SdDriver V) (name : CStr) (s : State V) :
    State V :=
  openFile cfg drv name false false { s with logging := true }

/-- The calls of `presort` that follow a change of the directory:
`#if ENABLED(SDCARD_SORT_ALPHA)`, and with `SORT_ONOFF` only `if (sort_alpha)`. -/
def presortIfEnabled {V : Type} (cfg : Config) (drv : SdDriver V) (s : State V) : State V :=
  if cfg.SDCARD_SORT_ALPHA then
    (if cfg.SORT_ONOFF then (if s.sort_alpha then presort cfg drv s else s)
    else presort cfg drv s)
  else s

/-- `void CardReader::removeFile(char* name)` -/
def removeFile {V : Type} (cfg : Config) (drv : SdDriver V) (name : CStr) (s : State V) :
    State V :=
  if !s.cardOK then s
  else
    let s2 := stopSDPrint s
    match resolvePath drv name s2 with
    | (s3, none) => s3
    | (s3, some fname) =>
      let r := drv.sdRemove s3.vol s3.curDir fname
      let s4 : State V :=
        { s3 with vol := r.2, sdlog := s3.sdlog ++ [SdCall.removeCall s3.curDir fname] }
      if r.1 then presortIfEnabled cfg drv { s4 with sdpos := 0 }
      else s4

/-- `void setIndex(long index)`; the conversions of the saved `uint32_t` offset to `long`
and back do not change it. -/
def setIndex {V : Type} (drv : SdDriver V) (index : Nat) (s : State V) : State V :=
  { s with sdpos := index, file := drv.seekSet s.vol s.file index }

/-- `void CardReader::startFileprint()` -/
def startFileprint {V : Type} (cfg : Config) (s : State V) : State V :=
  if s.cardOK then
    let s1 : State V := { s with sdprinting := true }
    if cfg.SDCARD_SORT_ALPHA then flush_presort s1 else s1
  else s

/-- `void CardReader::printingHasFinished()` -/
def printingHasFinished {V : Type} (cfg : Config) (drv : SdDriver V) (s : State V) : State V :=
  -- stepper.synchronize(); file.close();
  let s1 : State V := { s with file := none }
  if s1.file_subcall_ctr > 0 then
    let s2 : State V := { s1 with file_subcall_ctr := s1.file_subcall_ctr - 1 }
    let s3 := openFile cfg drv (s2.proc_filenames s2.file_subcall_ctr) true true s2
    let s4 := setIndex drv (s3.filespos s3.file_subcall_ctr) s3
    startFileprint cfg s4
  else
    let s2 : State V := { s1 with sdprinting := false }
    let s3 : State V :=
      if cfg.SD_FINISHED_STEPPERRELEASE then
        { s2 with queue := s2.queue ++ [cfg.SD_FINISHED_RELEASECOMMAND] }
      else s2
    let s4 : State V := { s3 with timer_running := false }
    let s5 : State V :=
      if s4.timer_duration > 60 then { s4 with queue := s4.queue ++ [str "M31"] } else s4
    if cfg.SDCARD_SORT_ALPHA then presort cfg drv s5 else s5

/-! ## The claims' vocabulary for directories -/

/-- The entry is the free marker that ends the allocated entries. -/
def isFreeMarker (e : DirEntry) : Bool := e.p.nameAt 0 == DIR_NAME_FREE

/-- Eligibility of an entry as the claims word it: not deleted, not a "." or ".."
pseudo-entry, long name not beginning with ".", a file or subdirectory, not hidden, and
either a directory or a file whose short name has G as its 9th character and not a
tilde as its 10th. -/
def eligible (e : DirEntry) : Bool :=
  e.p.nameAt 0 != DIR_NAME_DELETED && e.p.nameAt 0 != 46
    && char0 e.longFilename != 46
    && DIR_IS_FILE_OR_SUBDIR e.p
    && (e.p.attributes &&& DIR_ATT_HIDDEN == 0)
    && (DIR_IS_SUBDIR e.p || (e.p.nameAt 8 == 71 && e.p.nameAt 9 != 126))

/-- The entries that precede the first free marker. -/
def allocated (D : List DirEntry) : List DirEntry := D.takeWhile (fun e => !isFreeMarker e)

/-- The eligible entries of a directory, in on-disk order. -/
def eligibleEntries (D : List DirEntry) : List DirEntry := (allocated D).filter eligible

/-- The eligible entries of the entries `D` found from position `pos` on, each with its
position. -/
def eligibleFrom : List DirEntry → Nat → List (Nat × DirEntry)
  | [], _ => []
  | e :: rest, pos =>
    if isFreeMarker e then []
    else if eligible e then (pos, e) :: eligibleFrom rest (pos + 1)
    else eligibleFrom rest (pos + 1)

/-- A state after `CardReader::CardReader()` on a volume, with `root` and the working
directory open on the handle 0 and the card marked usable. -/
def mounted {V : Type} (vol : V) : State V :=
  { saving := false, logging := false, sdprinting := false, cardOK := true,
    filenameIsDir := false, filename := [], longFilename := [], autostart_index := 0,
    root := some 0, curDir := some 0, workDir := some 0, workDirParents := fun _ => none,
    workDirDepth := 0, sort_count := 0, sort_alpha := true, sort_folders := 0,
    sort_order := fun _ => 0, sortshort := fun _ => [], sortnames := fun _ => [],
    isDir := fun _ => 0, file := none, file_subcall_ctr := 0, filespos := fun _ => 0,
    proc_filenames := fun _ => [], filesize := 0, sdpos := 0, next_autostart_ms := 5000,
    autostart_stilltocheck := true, lsAction := LsAction.LS_SerialPrint, nrFiles := 0,
    vol := vol, serial := [], killed := false, overrun := false, sdlog := [], queue := [], lcd_status := [],
    timer_running := false, timer_duration := 0 }

/-- A driver for a volume that is one directory: `readDir` delivers `D` on every handle,
and nothing can be opened or removed. -/
def flatDriver (D : List DirEntry) : SdDriver Unit :=
  { readDir := fun _ _ => D
    sdOpen := fun v _ _ _ _ => (none, v)
    sdRemove := fun v _ _ => (false, v)
    fileSize := fun _ _ => 0
    getFilename := fun _ _ => []
    seekSet := fun _ f _ => f }

/-- A file entry with the 8.3 name `name` and no long name. -/
def fileEntry (name : String) : DirEntry := DirEntry.mk (dir_t.mk (str name) 0x20) []

/-- A folder entry with the 8.3 name `name`. -/
def dirEntry (name : String) : DirEntry := DirEntry.mk (dir_t.mk (str name) 0x10) []

/-- The entry passes the filters that precede the assignment of `filenameIsDir`. -/
def reachesIsDir (e : DirEntry) : Bool :=
  e.p.nameAt 0 != DIR_NAME_DELETED && e.p.nameAt 0 != 46
    && char0 e.longFilename != 46
    && DIR_IS_FILE_OR_SUBDIR e.p
    && (e.p.attributes &&& DIR_ATT_HIDDEN == 0)

/-- The state after `lsDive` has read the entry `e` and skipped it with `continue`. -/
def skipState {V : Type} (e : DirEntry) (s : State V) : State V :=
  { s with
    longFilename := e.longFilename
    filenameIsDir := if reachesIsDir e then DIR_IS_SUBDIR e.p else s.filenameIsDir }

/-- The state after `lsDive` has read the eligible entry `e` in the action
`LS_GetFilename`. -/
def foundState {V : Type} (e : DirEntry) (s : State V) : State V :=
  { s with
    longFilename := e.longFilename
    filenameIsDir := DIR_IS_SUBDIR e.p
    filename := createFilename e.p }

/-- A G-code file entry with the 8.3 name `Fnnnnn  GCO`, where `nnnnn` is `i` in five
decimal digits. -/
def gcodeEntry (i : Nat) : DirEntry :=
  DirEntry.mk (dir_t.mk
    [70, 48 + i / 10000 % 10, 48 + i / 1000 % 10, 48 + i / 100 % 10, 48 + i / 10 % 10,
      48 + i % 10, 32, 32, 71, 67, 79] 0x20) []

/-- A directory of `n` G-code files with distinct names. -/
def gcodeDir (n : Nat) : List DirEntry := (List.range n).map gcodeEntry

/-- A directory with a folder, two G-code files, a text file, a hidden file, a deleted
entry, a disabled G-code file, then the free marker and a G-code file behind it. -/
def sampleDir : List DirEntry :=
  [dirEntry "MODELS     ", fileEntry "PART    GCO", fileEntry "README  TXT",
    DirEntry.mk (dir_t.mk (str "SECRET  GCO") 0x22) [],
    DirEntry.mk (dir_t.mk (0xE5 :: str "LD     GCO") 0x20) [],
    fileEntry "BENCHY  G~1", fileEntry "CUBE    G  ",
    DirEntry.mk (dir_t.mk (List.replicate 11 0) 0) [], fileEntry "GHOST   GCO"]

/-- Two G-code files whose 8.3 names differ (one has a blank inside the base name) and
whose display names are both AB.GCO. -/
def spacedDir : List DirEntry := [fileEntry "A B     GCO", fileEntry "AB      GCO"]

/-- The state with other contents of the scratch fields that a traversal overwrites. -/
def withScratch {V : Type} (s : State V) (curDir : SdFile) (lsAction : LsAction)
    (filename longFilename : CStr) (filenameIsDir : Bool) (nrFiles : Nat) : State V :=
  { s with
    curDir := curDir, lsAction := lsAction, filename := filename,
    longFilename := longFilename, filenameIsDir := filenameIsDir, nrFiles := nrFiles }

/-! ## Invariants of the sort and sample data -/

/-- A configuration: the no-RAM tier, folders first, at most 40 sorted entries. -/
def stockConfig : Config :=
  { SDCARD_SORT_ALPHA := true, SORT_LIMIT := 40, SORT_USES_RAM := false,
    SORT_USES_MORE_RAM := false, SORT_ONOFF := false, FOLDER_SORTING := -1,
    SD_FINISHED_STEPPERRELEASE := true, SD_FINISHED_RELEASECOMMAND := str "M84 X Y Z E" }

/-- A directory of four files and two folders, one file with a long name. -/
def sortDir : List DirEntry :=
  [fileEntry "ZEBRA   GCO", dirEntry "MODELS     ", fileEntry "apple   GCO",
    DirEntry.mk (dir_t.mk (str "BANANA~1GCO") 0x20) (str "banana long name.gcode"),
    dirEntry "ALPHA      ", fileEntry "CUBE    G  "]

/-- The state `t` differs from `s` at most in the scratch fields of the traversal and in
the sort table. -/
def Framed {V : Type} (s t : State V) : Prop :=
  ∃ cur act fn lfn isd nr so sn ss idr cnt,
    t = { s with
      curDir := cur, lsAction := act, filename := fn, longFilename := lfn,
      filenameIsDir := isd, nrFiles := nr, sort_order := so, sortnames := sn,
      sortshort := ss, isDir := idr, sort_count := cnt }

/-- The path `/s1/s2/.../sn/f` of the folders `segs` and the last segment `f`. -/
def absPath (segs : List CStr) (f : CStr) : CStr :=
  47 :: (segs.flatMap (fun seg => seg ++ [47]) ++ f)

/-- The outcome of descending through folders: the requests sent to the driver, the
volume afterwards, the directory reached, and whether every folder opened. -/
structure Descent (V : Type) where
  calls : List SdCall
  vol : V
  dir : SdFile
  ok : Bool

/-- The resolver as the claims word it: starting at the directory `dir`, open the first
folder of `segs` in it, then the next folder inside the one just opened, and so on, each
once and in order, up to the first folder that does not open. `myDir` is the `SdFile`
that the driver is asked to open. -/
def descendCalls {V : Type} (drv : SdDriver V) : List CStr → V → SdFile → SdFile → Descent V
  | [], vol, _, dir => { calls := [], vol := vol, dir := dir, ok := true }
  | seg :: rest, vol, myDir, dir =>
    match drv.sdOpen vol myDir dir seg OFlag.O_READ with
    | (none, vol1) =>
      { calls := [SdCall.openCall dir seg OFlag.O_READ], vol := vol1, dir := dir, ok := false }
    | (some h, vol1) =>
      let q := descendCalls drv rest vol1 (some h) (some h)
      { q with calls := SdCall.openCall dir seg OFlag.O_READ :: q.calls }

/-- The flags with which `openFile` opens the file. -/
def openFlag (read : Bool) : OFlag :=
  if read then OFlag.O_READ else OFlag.O_CREAT_APPEND_WRITE_TRUNC

/-- What the part of `openFile` after the procedure stack keeps. -/
def Kept {V : Type} (s t : State V) : Prop :=
  t.cardOK = s.cardOK ∧ t.file_subcall_ctr = s.file_subcall_ctr
    ∧ t.proc_filenames = s.proc_filenames ∧ t.filespos = s.filespos ∧ t.killed = s.killed
    ∧ t.root = s.root ∧ t.workDir = s.workDir ∧ t.workDirDepth = s.workDirDepth
    ∧ t.workDirParents = s.workDirParents

/-! ## Sample volume and sessions for the file session -/

/-- A driver for a volume with the folder `SUBDIR` and the file `MAIN.GCO` in the root
directory and the file `PART.GCO` in `SUBDIR`. The handles are 0 for the root directory,
1 for `SUBDIR`, 2 for `MAIN.GCO` and 3 for `PART.GCO`; nothing else opens. -/
def treeDriver : SdDriver Unit :=
  { readDir := fun _ h =>
      if h = 0 then [dirEntry "SUBDIR     ", fileEntry "MAIN    GCO"]
      else if h = 1 then [fileEntry "PART    GCO"] else []
    sdOpen := fun v _ dir path _ =>
      if dir = some 0 ∧ path = str "SUBDIR" then (some 1, v)
      else if dir = some 0 ∧ path = str "MAIN.GCO" then (some 2, v)
      else if dir = some 1 ∧ path = str "PART.GCO" then (some 3, v)
      else (none, v)
    sdRemove := fun v dir path => (decide (dir = some 1 ∧ path = str "PART.GCO"), v)
    fileSize := fun _ _ => 1000
    getFilename := fun _ f =>
      if f = some 1 then str "SUBDIR" else if f = some 2 then str "MAIN.GCO"
      else if f = some 3 then str "PART.GCO" else []
    seekSet := fun _ f _ => f }

/-- The session on the volume of `treeDriver` after `openFile(name, true)` and
`startFileprint()` on a fresh card, when `p` bytes of the file have been read. -/
def reading (name : String) (p : Nat) : State Unit :=
  { startFileprint stockConfig
      (openFile stockConfig treeDriver (str name) true false (mounted ())) with sdpos := p }

/-! ## Working directory, progress and command logging -/

/-- `void CardReader::initsd()`. `mount` is what `card.init`, `volume.init` and
`root.openRoot` give: the handle of the root directory, or `none` when one of them
fails. -/
def initsd {V : Type} (cfg : Config) (drv : SdDriver V) (mount : Option Nat) (s : State V) :
    State V :=
  -- cardOK = false; if (root.isOpen()) root.close();
  let s1 : State V := { s with cardOK := false, root := none }
  let s2 : State V :=
    match mount with
    | none => s1
    | some h => { s1 with root := some h, cardOK := true }
  presortIfEnabled cfg drv { s2 with workDir := s2.root, curDir := s2.root }

/-- `void CardReader::setroot()` -/
def setroot {V : Type} (cfg : Config) (drv : SdDriver V) (s : State V) : State V :=
  presortIfEnabled cfg drv { s with workDir := s.root, curDir := s.root }

/-- `void CardReader::chdir(const char * relpath)` -/
def chdir {V : Type} (cfg : Config) (drv : SdDriver V) (relpath : CStr) (s : State V) :
    State V :=
  -- SdFile *parent = &root; if (workDir.isOpen()) parent = &workDir;
  let parent := if s.workDir.isSome then s.workDir else s.root
  -- newfile.open(*parent, relpath, O_READ)
  let r := drv.sdOpen s.vol none parent relpath OFlag.O_READ
  let s1 : State V :=
    { s with vol := r.2, sdlog := s.sdlog ++ [SdCall.openCall parent relpath OFlag.O_READ] }
  match r.1 with
  | none => s1
  | some h =>
    let s2 : State V :=
      if s1.workDirDepth < MAX_DIR_DEPTH then
        { s1 with
          workDirParents := Function.update s1.workDirParents s1.workDirDepth parent
          workDirDepth := s1.workDirDepth + 1 }
      else s1
    presortIfEnabled cfg drv { s2 with workDir := some h }

/-- `void CardReader::updir()` -/
def updir {V : Type} (cfg : Config) (drv : SdDriver V) (s : State V) : State V :=
  if s.workDirDepth > 0 then
    presortIfEnabled cfg drv
      { s with
        workDirDepth := s.workDirDepth - 1
        workDir := s.workDirParents (s.workDirDepth - 1) }
  else s

/-- A driver for a volume of empty folders in which every name opens as a folder: the
handle of the folder opened in the folder `h` is `h + 1`. -/
def deepDriver : SdDriver Unit :=
  { readDir := fun _ _ => []
    sdOpen := fun v _ dir _ _ => (some (dir.getD 0 + 1), v)
    sdRemove := fun v _ _ => (false, v)
    fileSize := fun _ _ => 0
    getFilename := fun _ _ => []
    seekSet := fun _ f _ => f }

/-- A driver for a volume whose root directory has the hidden folder `TRASHE~1` with the
long name `.Trashes`, which holds the file `OLD.GCO`, and the file `MAIN.GCO`. The
handles are 0 for the root directory and 1 for the folder. -/
def trashDriver : SdDriver Unit :=
  { readDir := fun _ h =>
      if h = 0 then
        [DirEntry.mk (dir_t.mk (str "TRASHE~1   ") 0x12) (str ".Trashes"),
          fileEntry "MAIN    GCO"]
      else if h = 1 then [fileEntry "OLD     GCO"] else []
    sdOpen := fun v _ dir path _ =>
      if dir = some 0 ∧ path = str "TRASHE~1" then (some 1, v) else (none, v)
    sdRemove := fun v _ _ => (false, v)
    fileSize := fun _ _ => 0
    getFilename := fun _ _ => []
    seekSet := fun _ f _ => f }

/-- The deletion of `name` fails: `removeFile` returns before the remove because a folder
of the path does not open, or the remove of the driver returns false. -/
def removeFails {V : Type} (drv : SdDriver V) (name : CStr) (s : State V) : Bool :=
  match resolvePath drv name (stopSDPrint s) with
  | (_, none) => true
  | (s3, some fname) => !(drv.sdRemove s3.vol s3.curDir fname).1

/-- `uint8_t percentDone()`: `sdpos` and `filesize` are `uint32_t`, the sum wraps at
`2 ^ 32` and the quotient is cut to the `uint8_t` that is returned; `none` when the
divisor is 0, where the source divides by zero. -/
def percentDone {V : Type} (s : State V) : Option Nat :=
  if isFileOpen s && s.filesize != 0 then
    (if (s.filesize + 99) % 2 ^ 32 / 100 = 0 then none
    else some (s.sdpos / ((s.filesize + 99) % 2 ^ 32 / 100) % 2 ^ 8))
  else some 0

/-- The index of the first `c` in a C string: `strchr(s, c) - s`, `none` for `NULL`. -/
def strchr (s : CStr) (c : Nat) : Option Nat :=
  if c ∈ s then some (s.indexOf c) else none

/-- `void CardReader::write_command(char *buf)`: the C string handed to `file.write`.
`buf` is the command before its NUL, in a buffer with room for the three chars that are
stored after `end`. The result is `none` where the source computes with the `NULL` that
`strchr` returned (`NULL + 1`, `NULL - 1`) and writes through it. -/
def write_command (buf : CStr) : Option CStr :=
  match strchr buf 78 with
  | none =>
    -- begin = buf; end = buf + strlen(buf) - 1
    some (cstr (buf ++ [13, 10, 0]))
  | some npos =>
    match strchr (buf.drop npos) 32, strchr (buf.drop npos) 42 with
    | some sp, some st =>
      let b := npos + sp + 1
      let e := npos + st - 1
      -- end[1] = '\r'; end[2] = '\n'; end[3] = '\0'; file.write(begin)
      some (cstr (((buf ++ [0]).take (e + 1) ++ [13, 10, 0] ++ (buf ++ [0]).drop (e + 4)).drop b))
    | _, _ => none

/-! ## Autostart -/

/-- Modelled from the spec: the macro `ELAPSED(NOW, SOON)` of macros.h, which is not under
src/: `!((long)(NOW - (SOON)) < 0)` on the 32-bit times of `millis()`. -/
def ELAPSED (now soon : Nat) : Bool :=
  decide ((now % 2 ^ 32 + 2 ^ 32 - soon % 2 ^ 32) % 2 ^ 32 < 2 ^ 31)

/-- The digits that `sprintf` writes for `%i`. -/
def decimal (n : Int) : CStr :=
  if n < 0 then 45 :: (Nat.toDigits 10 n.natAbs).map Char.toNat
  else (Nat.toDigits 10 n.toNat).map Char.toNat

/-- The name bytes after `for (i < strlen((char*)p.name)) p.name[i] = tolower(p.name[i])`:
the bytes before the first NUL are lowered. -/
def lowerName (name : List Nat) : List Nat :=
  (name.take (cstr name).length).map tolower ++ name.drop (cstr name).length

/-- `void CardReader::openAndPrintFile(const char *name)` -/
def openAndPrintFile {V : Type} (name : CStr) (s : State V) : State V :=
  { s with queue := s.queue ++ [str "M23 " ++ name.map tolower, str "M24"] }

/-- The loop `while (root.readDir(p, NULL) > 0)` of `checkautostart` on the entries that
the root has not delivered yet: the state and `found` afterwards. -/
def autostartScan {V : Type} (autoname : CStr) :
    List DirEntry → State V → Bool → State V × Bool
  | [], s, found => (s, found)
  | e :: rest, s, found =>
    if (lowerName e.p.name).getD 9 0 ≠ 126 ∧ (lowerName e.p.name).take 5 = autoname.take 5 then
      autostartScan autoname rest (openAndPrintFile autoname s) true
    else autostartScan autoname rest s found

/-- `void CardReader::checkautostart(bool force)`. `now` is what `millis()` returns and
`mount` what `initsd()` finds, should it be called. A name that does not fit
`char autoname[10]` with its NUL is recorded in `overrun`. -/
def checkautostart {V : Type} (cfg : Config) (drv : SdDriver V) (force : Bool) (now : Nat)
    (mount : Option Nat) (s : State V) : State V :=
  if !force && (!s.autostart_stilltocheck || ELAPSED now s.next_autostart_ms) then s
  else
    let s1 : State V := { s with autostart_stilltocheck := false }
    let s2 : State V := if !s1.cardOK then initsd cfg drv mount s1 else s1
    if !s2.cardOK then s2
    else
      -- sprintf_P(autoname, PSTR("auto%i.g"), autostart_index); then tolower
      let autoname := (str "auto" ++ decimal s2.autostart_index ++ str ".g").map tolower
      if 10 ≤ autoname.length then { s2 with overrun := true }
      else
        let es := match drv.entries s2.vol s2.root with
          | none => []
          | some es => es
        let r := autostartScan autoname es s2 false
        if !r.2 then { r.1 with autostart_index := -1 }
        else { r.1 with autostart_index := r.1.autostart_index + 1 }

/-- A driver for a volume whose root directory holds the files `AUTO0.G` and `MAIN.GCO`. -/
def autoDriver : SdDriver Unit :=
  { readDir := fun _ h => if h = 0 then [fileEntry "AUTO0   G  ", fileEntry "MAIN    GCO"] else []
    sdOpen := fun v _ _ _ _ => (none, v)
    sdRemove := fun v _ _ => (false, v)
    fileSize := fun _ _ => 0
    getFilename := fun _ _ => []
    seekSet := fun _ f _ => f }

end CardReader

/-! # Theorems -/

namespace CardReader

variable {V : Type}

/-! ## Traversal: one round of the loop -/

theorem eligibleEntries_cons (e : DirEntry) (rest : List DirEntry) :
    eligibleEntries (e :: rest) =
      if isFreeMarker e then []
      else if eligible e then e :: eligibleEntries rest else eligibleEntries rest := by
  unfold eligibleEntries allocated
  by_cases h1 : isFreeMarker e = true
  · simp [List.takeWhile_cons, h1]
  · by_cases h2 : eligible e = true
    · simp [List.takeWhile_cons, h1, h2, List.filter_cons]
    · simp [List.takeWhile_cons, h1, h2, List.filter_cons]

theorem eligibleFrom_map_snd (D : List DirEntry) (pos : Nat) :
    (eligibleFrom D pos).map Prod.snd = eligibleEntries D := by
  induction D generalizing pos with
  | nil => rfl
  | cons e rest ih =>
    rw [eligibleEntries_cons, eligibleFrom]
    by_cases h1 : isFreeMarker e = true
    · simp [h1]
    · by_cases h2 : eligible e = true
      · simp [h1, h2, ih]
      · simp [h1, h2, ih]

theorem lsDiveLoop_cons_count (drv : SdDriver V) (dive : CStr → SdFile → State V → State V)
    (prepend : CStr) (parent : SdFile) (mtch : Option CStr) (e : DirEntry)
    (rest : List DirEntry) (pos cnt : Nat) (s : State V)
    (ha : s.lsAction = LsAction.LS_Count) :
    lsDiveLoop drv dive prepend parent mtch (e :: rest) pos cnt s =
      if isFreeMarker e then ({ s with longFilename := e.longFilename }, none)
      else if eligible e then
        lsDiveLoop drv dive prepend parent mtch rest (pos + 1) cnt
          { s with
            longFilename := e.longFilename
            filenameIsDir := DIR_IS_SUBDIR e.p
            nrFiles := (s.nrFiles + 1) % 2 ^ 16 }
      else lsDiveLoop drv dive prepend parent mtch rest (pos + 1) cnt (skipState e s) := by
  rw [lsDiveLoop]
  simp only [ha, isFreeMarker, eligible, skipState, reachesIsDir, bne_self_eq_false,
    Bool.and_false, Bool.false_and, Bool.false_eq_true, if_false]
  by_cases h0 : e.p.nameAt 0 = DIR_NAME_FREE
  · simp [h0]
  · by_cases h1 : e.p.nameAt 0 = DIR_NAME_DELETED
    · simp [h0, h1]
    · by_cases h2 : e.p.nameAt 0 = 46
      · simp [h0, h1, h2]
      · by_cases h3 : char0 e.longFilename = 46
        · simp [h0, h1, h2, h3]
        · by_cases h4 : DIR_IS_FILE_OR_SUBDIR e.p = true
          · by_cases h5 : e.p.attributes &&& DIR_ATT_HIDDEN = 0
            · by_cases h6 : DIR_IS_SUBDIR e.p = true
              · simp [h0, h1, h2, h3, h4, h5, h6]
              · by_cases h7 : e.p.nameAt 8 = 71
                · by_cases h8 : e.p.nameAt 9 = 126
                  · simp [h0, h1, h2, h3, h4, h5, h6, h7, h8]
                  · simp [h0, h1, h2, h3, h4, h5, h6, h7, h8]
                · simp [h0, h1, h2, h3, h4, h5, h6, h7]
            · simp [h0, h1, h2, h3, h4, h5]
          · simp [h0, h1, h2, h3, h4]

theorem lsDiveLoop_cons_get (drv : SdDriver V) (dive : CStr → SdFile → State V → State V)
    (prepend : CStr) (parent : SdFile) (mtch : Option CStr) (e : DirEntry)
    (rest : List DirEntry) (pos cnt : Nat) (s : State V)
    (ha : s.lsAction = LsAction.LS_GetFilename) :
    lsDiveLoop drv dive prepend parent mtch (e :: rest) pos cnt s =
      if isFreeMarker e then ({ s with longFilename := e.longFilename }, none)
      else if eligible e then
        (match mtch with
        | some m =>
          if strcasecmp m (createFilename e.p) = 0 then (foundState e s, some pos)
          else lsDiveLoop drv dive prepend parent mtch rest (pos + 1) ((cnt + 1) % 2 ^ 8)
            (foundState e s)
        | none =>
          if cnt = s.nrFiles then (foundState e s, some pos)
          else lsDiveLoop drv dive prepend parent mtch rest (pos + 1) ((cnt + 1) % 2 ^ 8)
            (foundState e s))
      else lsDiveLoop drv dive prepend parent mtch rest (pos + 1) cnt (skipState e s) := by
  rw [lsDiveLoop]
  simp only [ha, isFreeMarker, eligible, skipState, foundState, reachesIsDir, bne_self_eq_false,
    Bool.and_false, Bool.false_and, Bool.false_eq_true, if_false]
  by_cases h0 : e.p.nameAt 0 = DIR_NAME_FREE
  · simp [h0]
  · by_cases h1 : e.p.nameAt 0 = DIR_NAME_DELETED
    · simp [h0, h1]
    · by_cases h2 : e.p.nameAt 0 = 46
      · simp [h0, h1, h2]
      · by_cases h3 : char0 e.longFilename = 46
        · simp [h0, h1, h2, h3]
        · by_cases h4 : DIR_IS_FILE_OR_SUBDIR e.p = true
          · by_cases h5 : e.p.attributes &&& DIR_ATT_HIDDEN = 0
            · by_cases h6 : DIR_IS_SUBDIR e.p = true
              · cases mtch <;> simp [h0, h1, h2, h3, h4, h5, h6]
              · by_cases h7 : e.p.nameAt 8 = 71
                · by_cases h8 : e.p.nameAt 9 = 126
                  · simp [h0, h1, h2, h3, h4, h5, h6, h7, h8]
                  · cases mtch <;> simp [h0, h1, h2, h3, h4, h5, h6, h7, h8]
                · simp [h0, h1, h2, h3, h4, h5, h6, h7]
            · simp [h0, h1, h2, h3, h4, h5]
          · simp [h0, h1, h2, h3, h4]

@[simp] theorem skipState_lsAction (e : DirEntry) (s : State V) :
    (skipState e s).lsAction = s.lsAction := rfl

@[simp] theorem skipState_nrFiles (e : DirEntry) (s : State V) :
    (skipState e s).nrFiles = s.nrFiles := rfl

@[simp] theorem foundState_lsAction (e : DirEntry) (s : State V) :
    (foundState e s).lsAction = s.lsAction := rfl

@[simp] theorem foundState_nrFiles (e : DirEntry) (s : State V) :
    (foundState e s).nrFiles = s.nrFiles := rfl

@[simp] theorem foundState_skipState (e e1 : DirEntry) (s : State V) :
    foundState e (skipState e1 s) = foundState e s := rfl

@[simp] theorem foundState_foundState (e e1 : DirEntry) (s : State V) :
    foundState e (foundState e1 s) = foundState e s := rfl

/-! ## Traversal: the three actions on a whole directory -/

/-- The action `LS_Count` adds the number of eligible entries to `nrFiles`, in 16 bits,
and never returns early. -/
theorem lsDiveLoop_count (drv : SdDriver V) (dive : CStr → SdFile → State V → State V)
    (prepend : CStr) (parent : SdFile) (mtch : Option CStr) (D : List DirEntry) :
    ∀ (pos cnt : Nat) (s : State V), s.lsAction = LsAction.LS_Count →
      (lsDiveLoop drv dive prepend parent mtch D pos cnt s).1.nrFiles % 2 ^ 16 =
        (s.nrFiles + (eligibleEntries D).length) % 2 ^ 16
      ∧ ((eligibleEntries D).length = 0 →
          (lsDiveLoop drv dive prepend parent mtch D pos cnt s).1.nrFiles = s.nrFiles)
      ∧ (0 < (eligibleEntries D).length →
          (lsDiveLoop drv dive prepend parent mtch D pos cnt s).1.nrFiles < 2 ^ 16) := by
  induction D with
  | nil => intro pos cnt s _; simp [lsDiveLoop, eligibleEntries, allocated]
  | cons e rest ih =>
    intro pos cnt s ha
    rw [lsDiveLoop_cons_count _ _ _ _ _ _ _ _ _ _ ha, eligibleEntries_cons]
    by_cases h1 : isFreeMarker e = true
    · simp [h1]
    · by_cases h2 : eligible e = true
      · simp only [h1, h2, if_true, if_false, Bool.false_eq_true, List.length_cons]
        obtain ⟨a, b, c⟩ := ih (pos + 1) cnt
          { s with
            longFilename := e.longFilename
            filenameIsDir := DIR_IS_SUBDIR e.p
            nrFiles := (s.nrFiles + 1) % 2 ^ 16 } ha
        refine ⟨?_, ?_, ?_⟩
        · rw [a]; simp only []; omega
        · intro h; omega
        · intro _
          by_cases h0 : (eligibleEntries rest).length = 0
          · rw [b h0]; simp only []; omega
          · exact c (by omega)
      · simp only [h1, h2, if_false, Bool.false_eq_true]
        exact ih (pos + 1) cnt (skipState e s) (by simp [ha])

/-- The action `LS_GetFilename` without `match`, asked for an index below 256: the
traversal returns at the eligible entry number `nrFiles - cnt` of the entries left, and
runs to the end when there is none. -/
theorem lsDiveLoop_enum (drv : SdDriver V) (dive : CStr → SdFile → State V → State V)
    (prepend : CStr) (parent : SdFile) (D : List DirEntry) :
    ∀ (pos cnt : Nat) (s : State V), s.lsAction = LsAction.LS_GetFilename →
      cnt ≤ s.nrFiles → s.nrFiles < 2 ^ 8 →
      match (eligibleFrom D pos)[s.nrFiles - cnt]? with
      | some x =>
        lsDiveLoop drv dive prepend parent none D pos cnt s = (foundState x.2 s, some x.1)
      | none => (lsDiveLoop drv dive prepend parent none D pos cnt s).2 = none := by
  induction D with
  | nil => intro pos cnt s _ _ _; simp [lsDiveLoop, eligibleFrom]
  | cons e rest ih =>
    intro pos cnt s ha hc hn
    rw [lsDiveLoop_cons_get _ _ _ _ _ _ _ _ _ _ ha, eligibleFrom]
    by_cases h1 : isFreeMarker e = true
    · simp [h1]
    · by_cases h2 : eligible e = true
      · simp only [h1, h2, if_true, if_false, Bool.false_eq_true]
        by_cases h3 : cnt = s.nrFiles
        · simp [h3]
        · have hlt : cnt < s.nrFiles := by omega
          have hmod : (cnt + 1) % 2 ^ 8 = cnt + 1 := Nat.mod_eq_of_lt (by omega)
          have hidx : s.nrFiles - cnt = (s.nrFiles - (cnt + 1)) + 1 := by omega
          simp only [h3, if_false, hmod]
          rw [hidx, List.getElem?_cons_succ]
          have := ih (pos + 1) (cnt + 1) (foundState e s) (by simp [ha]) (by simpa using hlt)
            (by simpa using hn)
          simpa using this
      · simp only [h1, h2, if_false, Bool.false_eq_true]
        have := ih (pos + 1) cnt (skipState e s) (by simp [ha]) (by simpa using hc)
          (by simpa using hn)
        revert this
        simp only [skipState_nrFiles]
        cases (eligibleFrom rest (pos + 1))[s.nrFiles - cnt]? with
        | none => simp
        | some x =>
          simp only []
          intro h
          rw [h, foundState_skipState]

/-- The action `LS_GetFilename` without `match`, asked for an index that does not fit
the 8-bit counter `cnt`: the traversal never returns early. -/
theorem lsDiveLoop_enum_wide (drv : SdDriver V) (dive : CStr → SdFile → State V → State V)
    (prepend : CStr) (parent : SdFile) (D : List DirEntry) :
    ∀ (pos cnt : Nat) (s : State V), s.lsAction = LsAction.LS_GetFilename →
      cnt < 2 ^ 8 → 2 ^ 8 ≤ s.nrFiles →
      (lsDiveLoop drv dive prepend parent none D pos cnt s).2 = none := by
  induction D with
  | nil => intro pos cnt s _ _ _; simp [lsDiveLoop]
  | cons e rest ih =>
    intro pos cnt s ha hc hn
    rw [lsDiveLoop_cons_get _ _ _ _ _ _ _ _ _ _ ha]
    by_cases h1 : isFreeMarker e = true
    · simp [h1]
    · by_cases h2 : eligible e = true
      · have h3 : cnt ≠ s.nrFiles := by omega
        simp only [h1, h2, if_true, if_false, Bool.false_eq_true, h3]
        exact ih (pos + 1) _ (foundState e s) (by simp [ha]) (Nat.mod_lt _ (by norm_num))
          (by simpa using hn)
      · simp only [h1, h2, if_false, Bool.false_eq_true]
        exact ih (pos + 1) cnt (skipState e s) (by simp [ha]) hc (by simpa using hn)

/-- The action `LS_GetFilename` with `match`: the traversal returns at the first eligible
entry whose display name equals `match` up to case, and runs to the end when there is
none. -/
theorem lsDiveLoop_find (drv : SdDriver V) (dive : CStr → SdFile → State V → State V)
    (prepend : CStr) (parent : SdFile) (m : CStr) (D : List DirEntry) :
    ∀ (pos cnt : Nat) (s : State V), s.lsAction = LsAction.LS_GetFilename →
      match (eligibleFrom D pos).find? (fun x => strcasecmp m (createFilename x.2.p) = 0) with
      | some x =>
        lsDiveLoop drv dive prepend parent (some m) D pos cnt s = (foundState x.2 s, some x.1)
      | none => (lsDiveLoop drv dive prepend parent (some m) D pos cnt s).2 = none := by
  induction D with
  | nil => intro pos cnt s _; simp [lsDiveLoop, eligibleFrom]
  | cons e rest ih =>
    intro pos cnt s ha
    rw [lsDiveLoop_cons_get _ _ _ _ _ _ _ _ _ _ ha, eligibleFrom]
    by_cases h1 : isFreeMarker e = true
    · simp [h1]
    · by_cases h2 : eligible e = true
      · simp only [h1, h2, if_true, if_false, Bool.false_eq_true]
        by_cases h3 : strcasecmp m (createFilename e.p) = 0
        · simp [h3, List.find?_cons]
        · simp only [h3, if_false, List.find?_cons, decide_False]
          have := ih (pos + 1) ((cnt + 1) % 2 ^ 8) (foundState e s) (by simp [ha])
          simpa using this
      · simp only [h1, h2, if_false, Bool.false_eq_true]
        have := ih (pos + 1) cnt (skipState e s) (by simp [ha])
        revert this
        cases (eligibleFrom rest (pos + 1)).find?
            (fun x => strcasecmp m (createFilename x.2.p) = 0) with
        | none => simp
        | some x =>
          simp only []
          intro h
          rw [h, foundState_skipState]

/-! ## Traversal: `getnrfilenames` and `getfilename` on the working directory -/

theorem entries_workDir (drv : SdDriver V) (s : State V) (h : Nat)
    (hw : s.workDir = some h) :
    drv.entries s.vol s.workDir = some (drv.readDir s.vol h) := by
  rw [hw]; rfl

theorem getnrfilenames_eq (drv : SdDriver V) (s : State V) (h : Nat)
    (hw : s.workDir = some h) :
    (getnrfilenames drv s).1 = (eligibleEntries (drv.readDir s.vol h)).length % 2 ^ 16 := by
  have key := lsDiveLoop_count drv (fun _ _ s1 => s1) [] s.workDir none (drv.readDir s.vol h) 0 0
    { s with curDir := s.workDir, lsAction := LsAction.LS_Count, nrFiles := 0 } rfl
  simp only [getnrfilenames, lsDive, lsDiveAt, entries_workDir drv s h hw]
  obtain ⟨a, b, c⟩ := key
  simp only [Nat.zero_add] at a b c
  by_cases h0 : (eligibleEntries (drv.readDir s.vol h)).length = 0
  · rw [b h0, h0]; rfl
  · rw [← a, Nat.mod_eq_of_lt (c (by omega))]

theorem eligibleFrom_getElem? (D : List DirEntry) (pos i : Nat) :
    ((eligibleFrom D pos)[i]?).map Prod.snd = (eligibleEntries D)[i]? := by
  rw [← eligibleFrom_map_snd D pos, List.getElem?_map]

theorem eligibleFrom_length (D : List DirEntry) (pos : Nat) :
    (eligibleFrom D pos).length = (eligibleEntries D).length := by
  rw [← eligibleFrom_map_snd D pos, List.length_map]

/-- The state in which `getfilename` starts the traversal. -/
theorem getfilenameDive_eq (drv : SdDriver V) (s : State V) (h : Nat) (i : Nat)
    (mtch : Option CStr) (hw : s.workDir = some h) :
    getfilenameDive drv i mtch s =
      lsDiveLoop drv (fun _ _ s1 => s1) [] s.workDir mtch (drv.readDir s.vol h) 0 0
        { s with
          curDir := s.workDir, lsAction := LsAction.LS_GetFilename, nrFiles := i % 2 ^ 16 } := by
  simp only [getfilenameDive, lsDiveAt, entries_workDir drv s h hw]

/-- Enumerate-by-index for an index below 256. -/
theorem getfilenameDive_enum (drv : SdDriver V) (s : State V) (h : Nat) (i : Nat)
    (hw : s.workDir = some h) (hi : i < 2 ^ 8) :
    match (eligibleFrom (drv.readDir s.vol h) 0)[i]? with
    | some x =>
      getfilenameDive drv i none s =
        (foundState x.2 { s with
          curDir := s.workDir, lsAction := LsAction.LS_GetFilename, nrFiles := i }, some x.1)
    | none => (getfilenameDive drv i none s).2 = none := by
  have h16 : i % 2 ^ 16 = i := Nat.mod_eq_of_lt (by omega)
  have key := lsDiveLoop_enum drv (fun _ _ s1 => s1) [] s.workDir (drv.readDir s.vol h) 0 0
    { s with curDir := s.workDir, lsAction := LsAction.LS_GetFilename, nrFiles := i }
    rfl (Nat.zero_le _) hi
  rw [getfilenameDive_eq drv s h i none hw, h16]
  simpa using key

/-- Enumerate-by-index for an index of 256 or more never stops at an entry. -/
theorem getfilenameDive_wide (drv : SdDriver V) (s : State V) (h : Nat) (i : Nat)
    (hw : s.workDir = some h) (hi : 2 ^ 8 ≤ i) (hi16 : i < 2 ^ 16) :
    (getfilenameDive drv i none s).2 = none := by
  have h16 : i % 2 ^ 16 = i := Nat.mod_eq_of_lt hi16
  rw [getfilenameDive_eq drv s h i none hw, h16]
  exact lsDiveLoop_enum_wide drv (fun _ _ s1 => s1) [] s.workDir (drv.readDir s.vol h) 0 0
    { s with curDir := s.workDir, lsAction := LsAction.LS_GetFilename, nrFiles := i }
    rfl (by norm_num) hi

/-- Find-by-name. -/
theorem getfilenameDive_find (drv : SdDriver V) (s : State V) (h : Nat) (m : CStr)
    (hw : s.workDir = some h) :
    match (eligibleFrom (drv.readDir s.vol h) 0).find?
        (fun x => strcasecmp m (createFilename x.2.p) = 0) with
    | some x =>
      getfilenameDive drv 0 (some m) s =
        (foundState x.2 { s with
          curDir := s.workDir, lsAction := LsAction.LS_GetFilename, nrFiles := 0 }, some x.1)
    | none => (getfilenameDive drv 0 (some m) s).2 = none := by
  have key := lsDiveLoop_find drv (fun _ _ s1 => s1) [] s.workDir m (drv.readDir s.vol h) 0 0
    { s with curDir := s.workDir, lsAction := LsAction.LS_GetFilename, nrFiles := 0 } rfl
  rw [getfilenameDive_eq drv s h 0 (some m) hw]
  simpa using key

theorem strcasecmpAux_self (a : CStr) : strcasecmpAux a a = 0 := by
  induction a with
  | nil => rfl
  | cons c cs ih => simp [strcasecmpAux, ih]

theorem strcasecmp_self (a : CStr) : strcasecmp a a = 0 := strcasecmpAux_self _

theorem find?_eq_of_first {α : Type} (p : α → Bool) (l : List α) :
    ∀ (i : Nat) (x : α), l[i]? = some x → p x = true →
      (∀ j, j < i → ∀ y, l[j]? = some y → p y = false) → l.find? p = some x := by
  induction l with
  | nil => intro i x hx; simp at hx
  | cons a rest ih =>
    intro i x hx hp hfirst
    cases i with
    | zero =>
      simp only [List.getElem?_cons_zero, Option.some.injEq] at hx
      subst hx
      simp [List.find?_cons, hp]
    | succ n =>
      have ha : p a = false := hfirst 0 (Nat.succ_pos n) a (by simp)
      simp only [List.find?_cons, ha]
      simp only [List.getElem?_cons_succ] at hx
      exact ih n x hx hp (fun j hj y hy => hfirst (j + 1) (by omega) y (by simpa using hy))

theorem gcodeEntry_eligible (i : Nat) : eligible (gcodeEntry i) = true := by
  simp [eligible, gcodeEntry, dir_t.nameAt, char0, DIR_IS_FILE_OR_SUBDIR, DIR_IS_SUBDIR,
    DIR_NAME_DELETED, DIR_ATT_HIDDEN, DIR_ATT_VOLUME_ID]
  decide

theorem gcodeEntry_notFree (i : Nat) : isFreeMarker (gcodeEntry i) = false := by
  simp [isFreeMarker, gcodeEntry, dir_t.nameAt, DIR_NAME_FREE]

theorem gcodeDir_length (n : Nat) : (gcodeDir n).length = n := by
  simp only [gcodeDir, List.length_map, List.length_range]

theorem eligibleEntries_gcodeDir (n : Nat) : eligibleEntries (gcodeDir n) = gcodeDir n := by
  unfold eligibleEntries allocated
  have h1 : (gcodeDir n).takeWhile (fun e => !isFreeMarker e) = gcodeDir n := by
    rw [List.takeWhile_eq_self_iff]
    intro e he
    simp only [gcodeDir, List.mem_map] at he
    obtain ⟨i, _, rfl⟩ := he
    simp [gcodeEntry_notFree]
  rw [h1, List.filter_eq_self]
  intro e he
  simp only [gcodeDir, List.mem_map] at he
  obtain ⟨i, _, rfl⟩ := he
  exact gcodeEntry_eligible i

theorem getnrfilenames_flat (D : List DirEntry) :
    (getnrfilenames (flatDriver D) (mounted ())).1 = (eligibleEntries D).length % 2 ^ 16 :=
  getnrfilenames_eq (flatDriver D) (mounted ()) 0 rfl

theorem getfilenameDive_wide_flat (D : List DirEntry) (i : Nat) (hi : 2 ^ 8 ≤ i)
    (hi16 : i < 2 ^ 16) : (getfilenameDive (flatDriver D) i none (mounted ())).2 = none :=
  getfilenameDive_wide (flatDriver D) (mounted ()) 0 i rfl hi hi16

/-! ## The bubble sort on the array alone -/

set_option maxRecDepth 100000 in
/-- C1 (the code at a failing input): in a directory of 258 distinct G-code files
`getnrfilenames` returns 258, so 256 is a valid index, and yet `getfilename(256)` does not
stop at any entry: the 8-bit counter `cnt` never equals 256, the traversal runs through the
whole directory and leaves the name of the last file (number 257) in `filename`, not the
name of the file number 256. -/
theorem C1_getfilename_256_runs_through :
    (getnrfilenames (flatDriver (gcodeDir 258)) (mounted ())).1 = 258
    ∧ (getfilenameDive (flatDriver (gcodeDir 258)) 256 none (mounted ())).2 = none
    ∧ (getfilenameDive (flatDriver (gcodeDir 258)) 256 none (mounted ())).1.filename
        = createFilename (gcodeEntry 257).p
    ∧ createFilename (gcodeEntry 257).p ≠ createFilename (gcodeEntry 256).p := by
  refine ⟨?_, ?_, ?_, ?_⟩
  · rw [getnrfilenames_flat, eligibleEntries_gcodeDir, gcodeDir_length]; norm_num
  · exact getfilenameDive_wide_flat _ 256 (by norm_num) (by norm_num)
  · decide
  · decide

/-- C2 (counterexample): in a directory with the two files `A B     GCO` and
`AB      GCO` both display names are AB.GCO; index 1 is valid, enumerate-by-index
stops at entry 1, and find-by-name on the name it returns stops at entry 0. -/
theorem C2_counterexample_shared_display_name :
    1 < (getnrfilenames (flatDriver spacedDir) (mounted ())).1
    ∧ (getfilenameDive (flatDriver spacedDir) 1 none (mounted ())).2 = some 1
    ∧ (getfilenameDive (flatDriver spacedDir) 0
        (some (getfilenameDive (flatDriver spacedDir) 1 none (mounted ())).1.filename)
        (getfilenameDive (flatDriver spacedDir) 1 none (mounted ())).1).2 = some 0 := by
  decide

/-- C2 (amended): for every directory `D` (the entries of the open working directory)
and every index `i < count(D)` below 256 such that no eligible entry before the `i`-th
has a display name equal to the `i`-th one up to case, enumerate-by-index stops at an
entry `pos` and returns the display name of the `i`-th eligible entry, and find-by-name
on that name, run next, stops at the same entry `pos`. -/
theorem C2_find_of_enumerate (drv : SdDriver V) (s : State V) (h : Nat) (i : Nat)
    (hw : s.workDir = some h) (hi : i < (getnrfilenames drv s).1) (hi8 : i < 2 ^ 8)
    (hfirst : ∀ j, j < i → ∀ ej ei,
      (eligibleEntries (drv.readDir s.vol h))[j]? = some ej →
      (eligibleEntries (drv.readDir s.vol h))[i]? = some ei →
      strcasecmp (createFilename ei.p) (createFilename ej.p) ≠ 0) :
    ∃ pos e, (eligibleEntries (drv.readDir s.vol h))[i]? = some e
      ∧ (getfilenameDive drv i none s).2 = some pos
      ∧ (getfilenameDive drv i none s).1.filename = createFilename e.p
      ∧ (getfilenameDive drv 0 (some (getfilenameDive drv i none s).1.filename)
          (getfilenameDive drv i none s).1).2 = some pos := by
  have hlen : i < (eligibleFrom (drv.readDir s.vol h) 0).length := by
    rw [eligibleFrom_length]
    rw [getnrfilenames_eq drv s h hw] at hi
    exact lt_of_lt_of_le hi (Nat.mod_le _ _)
  have hx : (eligibleFrom (drv.readDir s.vol h) 0)[i]?
      = some ((eligibleFrom (drv.readDir s.vol h) 0)[i]) := List.getElem?_eq_getElem hlen
  generalize (eligibleFrom (drv.readDir s.vol h) 0)[i] = x at hx
  have hxe : (eligibleEntries (drv.readDir s.vol h))[i]? = some x.2 := by
    rw [← eligibleFrom_getElem? _ 0, hx]; rfl
  have e1 := getfilenameDive_enum drv s h i hw hi8
  rw [hx] at e1
  simp only [] at e1
  refine ⟨x.1, x.2, hxe, ?_, ?_, ?_⟩
  · rw [e1]
  · rw [e1]; rfl
  · rw [e1]
    have e2 := getfilenameDive_find drv
      (foundState x.2 { s with
        curDir := s.workDir, lsAction := LsAction.LS_GetFilename, nrFiles := i }) h
      (createFilename x.2.p) hw
    have hfind : (eligibleFrom (drv.readDir s.vol h) 0).find?
        (fun y => strcasecmp (createFilename x.2.p) (createFilename y.2.p) = 0) = some x := by
      apply find?_eq_of_first _ _ i x hx
      · simp [strcasecmp_self]
      · intro j hj y hy
        have hye : (eligibleEntries (drv.readDir s.vol h))[j]? = some y.2 := by
          rw [← eligibleFrom_getElem? _ 0, hy]; rfl
        simpa using hfirst j hj y.2 x.2 hye hxe
    have hvol : (foundState x.2 { s with
        curDir := s.workDir, lsAction := LsAction.LS_GetFilename, nrFiles := i }).vol = s.vol := rfl
    rw [hvol, hfind] at e2
    simp only [] at e2
    show (getfilenameDive drv 0 (some (createFilename x.2.p)) _).2 = some x.1
    rw [e2]

/-- C2 (amended) at a concrete directory: index 1 of `sampleDir`. -/
theorem C2_find_of_enumerate_witness :
    ∃ pos e, (eligibleEntries sampleDir)[1]? = some e
      ∧ (getfilenameDive (flatDriver sampleDir) 1 none (mounted ())).2 = some pos
      ∧ (getfilenameDive (flatDriver sampleDir) 1 none (mounted ())).1.filename
          = createFilename e.p
      ∧ (getfilenameDive (flatDriver sampleDir) 0
          (some (getfilenameDive (flatDriver sampleDir) 1 none (mounted ())).1.filename)
          (getfilenameDive (flatDriver sampleDir) 1 none (mounted ())).1).2 = some pos :=
  C2_find_of_enumerate (flatDriver sampleDir) (mounted ()) 0 1 rfl (by decide) (by decide)
    (by
      intro j hj ej ei h0 h1
      have hj0 : j = 0 := by omega
      subst hj0
      have e0 : (eligibleEntries sampleDir)[0]? = some (dirEntry "MODELS     ") := by decide
      have e1 : (eligibleEntries sampleDir)[1]? = some (fileEntry "PART    GCO") := by decide
      have a0 : ej = dirEntry "MODELS     " := (Option.some.inj (h0.symm.trans e0))
      have a1 : ei = fileEntry "PART    GCO" := (Option.some.inj (h1.symm.trans e1))
      subst a0 a1
      decide)

/-- C3 (counterexample): a directory of 65536 eligible G-code files; the 16-bit counter
`nrFiles` wraps and `getnrfilenames` returns 0, not 65536. -/
theorem C3_counterexample_wraps :
    (getnrfilenames (flatDriver (gcodeDir 65536)) (mounted ())).1 = 0
    ∧ (((gcodeDir 65536).takeWhile (fun e => !isFreeMarker e)).filter eligible).length
        = 65536 := by
  have hE : (((gcodeDir 65536).takeWhile (fun e => !isFreeMarker e)).filter eligible)
      = gcodeDir 65536 := eligibleEntries_gcodeDir 65536
  refine ⟨?_, ?_⟩
  · rw [getnrfilenames_flat, eligibleEntries_gcodeDir, gcodeDir_length]; norm_num
  · rw [hE, gcodeDir_length]

/-- C3 (amended): the count action returns, reduced modulo 2^16 (the counter `nrFiles`
is 16 bits wide), the number of entries of the working directory that precede the first
free marker and are eligible; entries at or after the first free marker are never
counted. -/
theorem C3_count_is_eligible_mod_2_16 (drv : SdDriver V) (s : State V) (h : Nat)
    (hw : s.workDir = some h) :
    (getnrfilenames drv s).1 =
      (((drv.readDir s.vol h).takeWhile (fun e => !isFreeMarker e)).filter eligible).length
        % 2 ^ 16 :=
  getnrfilenames_eq drv s h hw

/-- C3 (amended) at the concrete directory `sampleDir`, which holds three eligible
entries before its free marker. -/
theorem C3_count_is_eligible_mod_2_16_witness :
    (mounted ()).workDir = some 0
    ∧ (getnrfilenames (flatDriver sampleDir) (mounted ())).1 =
      ((sampleDir.takeWhile (fun e => !isFreeMarker e)).filter eligible).length % 2 ^ 16
    ∧ (getnrfilenames (flatDriver sampleDir) (mounted ())).1 = 3 :=
  ⟨rfl, C3_count_is_eligible_mod_2_16 (flatDriver sampleDir) (mounted ()) 0 rfl, by decide⟩

/-! ## The traversal touches its scratch fields only -/

theorem lsDiveLoop_scratch (drv : SdDriver V) (dive : CStr → SdFile → State V → State V)
    (prepend : CStr) (parent : SdFile) (mtch : Option CStr) (D : List DirEntry) :
    ∀ (pos cnt : Nat) (s : State V),
      (s.lsAction = LsAction.LS_Count ∨ s.lsAction = LsAction.LS_GetFilename) →
      ∃ fn lfn isd nr, (lsDiveLoop drv dive prepend parent mtch D pos cnt s).1
        = withScratch s s.curDir s.lsAction fn lfn isd nr := by
  induction D with
  | nil => intro pos cnt s _; exact ⟨_, _, _, _, rfl⟩
  | cons e rest ih =>
    intro pos cnt s ha
    rcases ha with ha | ha
    · rw [lsDiveLoop_cons_count _ _ _ _ _ _ _ _ _ _ ha]
      split
      · exact ⟨_, _, _, _, rfl⟩
      · split
        · obtain ⟨a, b, c, d, h⟩ := ih (pos + 1) cnt
            { s with
              longFilename := e.longFilename
              filenameIsDir := DIR_IS_SUBDIR e.p
              nrFiles := (s.nrFiles + 1) % 2 ^ 16 } (Or.inl ha)
          exact ⟨a, b, c, d, h⟩
        · obtain ⟨a, b, c, d, h⟩ := ih (pos + 1) cnt (skipState e s) (Or.inl ha)
          exact ⟨a, b, c, d, h⟩
    · rw [lsDiveLoop_cons_get _ _ _ _ _ _ _ _ _ _ ha]
      split
      · exact ⟨_, _, _, _, rfl⟩
      · split
        · cases mtch with
          | none =>
            simp only []
            split
            · exact ⟨_, _, _, _, rfl⟩
            · obtain ⟨a, b, c, d, h⟩ := ih (pos + 1) ((cnt + 1) % 2 ^ 8) (foundState e s)
                (Or.inr ha)
              exact ⟨a, b, c, d, h⟩
          | some m =>
            simp only []
            split
            · exact ⟨_, _, _, _, rfl⟩
            · obtain ⟨a, b, c, d, h⟩ := ih (pos + 1) ((cnt + 1) % 2 ^ 8) (foundState e s)
                (Or.inr ha)
              exact ⟨a, b, c, d, h⟩
        · obtain ⟨a, b, c, d, h⟩ := ih (pos + 1) cnt (skipState e s) (Or.inr ha)
          exact ⟨a, b, c, d, h⟩

theorem lsDiveAt_scratch (drv : SdDriver V) (prepend : CStr) (parent : SdFile)
    (mtch : Option CStr) (s : State V)
    (ha : s.lsAction = LsAction.LS_Count ∨ s.lsAction = LsAction.LS_GetFilename) :
    ∃ fn lfn isd nr, (lsDiveAt drv 0 prepend parent mtch s).1
      = withScratch s s.curDir s.lsAction fn lfn isd nr := by
  rw [lsDiveAt]
  cases drv.entries s.vol parent with
  | none => exact ⟨s.filename, s.longFilename, s.filenameIsDir, s.nrFiles, rfl⟩
  | some es => exact lsDiveLoop_scratch drv _ prepend parent mtch es 0 0 s ha

theorem getnrfilenames_scratch (drv : SdDriver V) (s : State V) :
    ∃ fn lfn isd nr, (getnrfilenames drv s).2
      = withScratch s s.workDir LsAction.LS_Count fn lfn isd nr := by
  obtain ⟨a, b, c, d, h⟩ := lsDiveAt_scratch drv [] s.workDir none
    { s with curDir := s.workDir, lsAction := LsAction.LS_Count, nrFiles := 0 } (Or.inl rfl)
  exact ⟨a, b, c, d, h⟩

theorem getfilenameDive_scratch (drv : SdDriver V) (nr : Nat) (mtch : Option CStr)
    (s : State V) :
    ∃ fn lfn isd nr1, (getfilenameDive drv nr mtch s).1
      = withScratch s s.workDir LsAction.LS_GetFilename fn lfn isd nr1 := by
  obtain ⟨a, b, c, d, h⟩ := lsDiveAt_scratch drv [] s.workDir mtch
    { s with
      curDir := s.workDir, lsAction := LsAction.LS_GetFilename, nrFiles := nr % 2 ^ 16 }
    (Or.inr rfl)
  exact ⟨a, b, c, d, h⟩

theorem flush_presort_eq (s : State V) : flush_presort s = { s with sort_count := 0 } := by
  unfold flush_presort
  by_cases h : s.sort_count > 0
  · simp [h]
  · have h0 : s.sort_count = 0 := by omega
    simp only [h, if_false]
    cases s
    simp only [State.mk.injEq, true_and, and_true] at h0 ⊢
    simp [h0]

theorem Framed.refl (s : State V) : Framed s s :=
  ⟨_, _, _, _, _, _, _, _, _, _, _, rfl⟩

theorem Framed.trans {s t u : State V} (h1 : Framed s t) (h2 : Framed t u) : Framed s u := by
  obtain ⟨_, _, _, _, _, _, _, _, _, _, _, rfl⟩ := h1
  obtain ⟨_, _, _, _, _, _, _, _, _, _, _, rfl⟩ := h2
  exact ⟨_, _, _, _, _, _, _, _, _, _, _, rfl⟩

theorem Framed.withScratch (s : State V) (cur : SdFile) (act : LsAction) (fn lfn : CStr)
    (isd : Bool) (nr : Nat) : Framed s (withScratch s cur act fn lfn isd nr) :=
  ⟨_, _, _, _, _, _, _, _, _, _, _, rfl⟩

theorem getfilename_framed (cfg : Config) (drv : SdDriver V) (nr : Nat) (mtch : Option CStr)
    (s : State V) : Framed s (getfilename cfg drv nr mtch s) := by
  have key : ∀ n, Framed s (getfilenameDive drv n mtch s).1 := by
    intro n
    obtain ⟨a, b, c, d, h⟩ := getfilenameDive_scratch drv n mtch s
    rw [h]; exact Framed.withScratch _ _ _ _ _ _ _
  unfold getfilename
  split
  · simp only []
    split
    · exact ⟨_, _, _, _, _, _, _, _, _, _, _, rfl⟩
    · exact key _
  · exact key _

theorem getnrfilenames_framed (drv : SdDriver V) (s : State V) :
    Framed s (getnrfilenames drv s).2 := by
  obtain ⟨a, b, c, d, h⟩ := getnrfilenames_scratch drv s
  rw [h]; exact Framed.withScratch _ _ _ _ _ _ _

theorem flush_presort_framed (s : State V) : Framed s (flush_presort s) := by
  rw [flush_presort_eq]; exact ⟨_, _, _, _, _, _, _, _, _, _, _, rfl⟩

theorem presortCmp_framed (cfg : Config) (drv : SdDriver V) (o1 o2 : Nat) (s : State V) :
    Framed s (presortCmp cfg drv o1 o2 s).2 := by
  unfold presortCmp
  split
  · exact Framed.refl s
  · exact (getfilename_framed cfg drv o1 none s).trans (getfilename_framed cfg drv o2 none _)

theorem presortInit_framed (cfg : Config) (drv : SdDriver V) (n : Nat) :
    ∀ (i : Nat) (s : State V), Framed s (presortInit cfg drv n i s) := by
  induction n with
  | zero => intro i s; exact Framed.refl s
  | succ n ih =>
    intro i s
    rw [presortInit]
    refine Framed.trans ?_ (ih (i + 1) _)
    have h1 : Framed s { s with sort_order := Function.update s.sort_order i (i % 2 ^ 8) } :=
      ⟨_, _, _, _, _, _, _, _, _, _, _, rfl⟩
    refine h1.trans ?_
    simp only []
    split
    · refine (getfilename_framed cfg drv i none _).trans ?_
      split
      · split
        · split
          · split
            · exact ⟨_, _, _, _, _, _, _, _, _, _, _, rfl⟩
            · exact ⟨_, _, _, _, _, _, _, _, _, _, _, rfl⟩
          · split
            · exact ⟨_, _, _, _, _, _, _, _, _, _, _, rfl⟩
            · exact ⟨_, _, _, _, _, _, _, _, _, _, _, rfl⟩
        · split
          · split
            · exact ⟨_, _, _, _, _, _, _, _, _, _, _, rfl⟩
            · exact ⟨_, _, _, _, _, _, _, _, _, _, _, rfl⟩
          · split
            · exact ⟨_, _, _, _, _, _, _, _, _, _, _, rfl⟩
            · exact ⟨_, _, _, _, _, _, _, _, _, _, _, rfl⟩
      · split
        · exact ⟨_, _, _, _, _, _, _, _, _, _, _, rfl⟩
        · exact ⟨_, _, _, _, _, _, _, _, _, _, _, rfl⟩
    · exact Framed.refl _

theorem presortInner_framed (cfg : Config) (drv : SdDriver V) (n : Nat) :
    ∀ (j : Nat) (s : State V) (d : Bool), Framed s (presortInner cfg drv n j s d).1 := by
  induction n with
  | zero => intro j s d; exact Framed.refl s
  | succ n ih =>
    intro j s d
    rw [presortInner]
    simp only []
    split
    · refine Framed.trans ?_ (ih (j + 1) _ true)
      exact (presortCmp_framed cfg drv _ _ s).trans ⟨_, _, _, _, _, _, _, _, _, _, _, rfl⟩
    · exact (presortCmp_framed cfg drv _ _ s).trans (ih (j + 1) _ d)

theorem presortOuter_framed (cfg : Config) (drv : SdDriver V) (m : Nat) :
    ∀ (s : State V), Framed s (presortOuter cfg drv m s) := by
  induction m with
  | zero => intro s; exact Framed.refl s
  | succ i ih =>
    intro s
    rw [presortOuter]
    split
    · exact Framed.refl s
    · simp only []
      split
      · exact presortInner_framed cfg drv i 0 s false
      · exact (presortInner_framed cfg drv i 0 s false).trans (ih _)

theorem presort_framed (cfg : Config) (drv : SdDriver V) (s : State V) :
    Framed s (presort cfg drv s) := by
  unfold presort
  simp only []
  have h1 : Framed s (getnrfilenames drv (flush_presort s)).2 :=
    (flush_presort_framed s).trans (getnrfilenames_framed drv _)
  generalize getnrfilenames drv (flush_presort s) = r at h1
  split
  · refine h1.trans ?_
    generalize (if r.1 > cfg.SORT_LIMIT then cfg.SORT_LIMIT % 2 ^ 16 else r.1) = N
    have h2 : ∀ t : State V, Framed t { t with sort_count := N } :=
      fun t => ⟨_, _, _, _, _, _, _, _, _, _, _, rfl⟩
    refine Framed.trans ?_ (h2 _)
    split
    · have h3 := presortInit_framed cfg drv N 0 r.2
      split
      · split
        · exact h3.trans (presortOuter_framed cfg drv N _)
        · exact h3
      · exact h3.trans (presortOuter_framed cfg drv N _)
    · have h3 : Framed r.2 { r.2 with sort_order := Function.update r.2.sort_order 0 0 } :=
        ⟨_, _, _, _, _, _, _, _, _, _, _, rfl⟩
      split
      · refine h3.trans ((getfilename_framed cfg drv 0 none _).trans ?_)
        exact ⟨_, _, _, _, _, _, _, _, _, _, _, rfl⟩
      · exact h3
  · exact h1

theorem presortIfEnabled_framed (cfg : Config) (drv : SdDriver V) (s : State V) :
    Framed s (presortIfEnabled cfg drv s) := by
  unfold presortIfEnabled
  split
  · split
    · split
      · exact presort_framed cfg drv s
      · exact Framed.refl s
    · exact presort_framed cfg drv s
  · exact Framed.refl s

/-! ## The path resolver -/

theorem takeWhile_segment (seg tl : CStr) (h : 47 ∉ seg) :
    (seg ++ 47 :: tl).takeWhile (fun c => c != 47) = seg
      ∧ (seg ++ 47 :: tl).dropWhile (fun c => c != 47) = 47 :: tl := by
  induction seg with
  | nil => simp
  | cons c cs ih =>
    have hc : c ≠ 47 := fun e => h (by simp [e])
    have hcs : 47 ∉ cs := fun e => h (by simp [e])
    obtain ⟨a, b⟩ := ih hcs
    constructor
    · simp only [List.cons_append, List.takeWhile_cons, bne_iff_ne, ne_eq, hc, not_false_eq_true,
        if_true, a]
    · simp only [List.cons_append, List.dropWhile_cons, bne_iff_ne, ne_eq, hc,
        not_false_eq_true, if_true, b]

theorem takeWhile_last (f : CStr) (h : 47 ∉ f) :
    f.dropWhile (fun c => c != 47) = [] := by
  rw [List.dropWhile_eq_nil_iff]
  intro c hc
  simp only [bne_iff_ne, ne_eq]
  exact fun e => h (e ▸ hc)

theorem state_eta (s : State V) :
    { s with vol := s.vol, sdlog := s.sdlog ++ [], curDir := s.curDir } = s := by
  cases s; simp

/-- The walk over an absolute path opens the folders as `descendCalls` does and leaves
the last segment as `fname`. -/
theorem pathWalk_spec (drv : SdDriver V) (segs : List CStr) (f : CStr) :
    ∀ (n : Nat) (myDir : SdFile) (s : State V),
      (∀ seg ∈ segs, seg ≠ [] ∧ 47 ∉ seg ∧ seg.length < FILENAME_LENGTH) → 47 ∉ f →
      segs.length ≤ n →
      pathWalk drv n (segs.flatMap (fun seg => seg ++ [47]) ++ f) myDir s
        = ({ s with
              vol := (descendCalls drv segs s.vol myDir s.curDir).vol
              sdlog := s.sdlog ++ (descendCalls drv segs s.vol myDir s.curDir).calls
              curDir := (descendCalls drv segs s.vol myDir s.curDir).dir },
            if (descendCalls drv segs s.vol myDir s.curDir).ok then some f else none) := by
  induction segs with
  | nil =>
    intro n myDir s _ hf _
    simp only [List.flatMap_nil, List.nil_append, descendCalls, if_true, state_eta]
    cases n with
    | zero => rfl
    | succ n =>
      rw [pathWalk]
      simp [takeWhile_last f hf]
  | cons seg rest ih =>
    intro n myDir s hs hf hn
    obtain ⟨hne, h47, hlen⟩ := hs seg (by simp)
    cases n with
    | zero => simp at hn
    | succ n =>
      have hrest : ∀ q ∈ rest, q ≠ [] ∧ 47 ∉ q ∧ q.length < FILENAME_LENGTH :=
        fun q hq => hs q (by simp [hq])
      obtain ⟨t1, t2⟩ := takeWhile_segment seg (rest.flatMap (fun seg => seg ++ [47]) ++ f) h47
      have hstr : (seg :: rest).flatMap (fun seg => seg ++ [47]) ++ f
          = seg ++ 47 :: (rest.flatMap (fun seg => seg ++ [47]) ++ f) := by
        simp [List.flatMap_cons]
      rw [hstr, pathWalk, descendCalls]
      simp only [t1, t2, ne_eq, reduceCtorEq, not_false_eq_true, hne, and_self, if_true,
        List.drop_one, List.tail_cons, Nat.not_le.mpr hlen, if_false]
      cases hopen : drv.sdOpen s.vol myDir s.curDir seg OFlag.O_READ with
      | mk r1 r2 =>
        cases r1 with
        | none => simp
        | some h =>
          simp only []
          rw [ih n (some h) _ hrest hf (by simpa using hn)]
          simp

theorem kept_refl (s : State V) : Kept s s := ⟨rfl, rfl, rfl, rfl, rfl, rfl, rfl, rfl, rfl⟩

theorem kept_trans {s t u : State V} (h1 : Kept s t) (h2 : Kept t u) : Kept s u := by
  obtain ⟨a1, a2, a3, a4, a5, a6, a7, a8, a9⟩ := h1
  obtain ⟨b1, b2, b3, b4, b5, b6, b7, b8, b9⟩ := h2
  exact ⟨b1.trans a1, b2.trans a2, b3.trans a3, b4.trans a4, b5.trans a5, b6.trans a6,
    b7.trans a7, b8.trans a8, b9.trans a9⟩

theorem pathWalk_kept (drv : SdDriver V) (n : Nat) :
    ∀ (rest : CStr) (myDir : SdFile) (s : State V), Kept s (pathWalk drv n rest myDir s).1 := by
  induction n with
  | zero => intro rest myDir s; exact kept_refl s
  | succ n ih =>
    intro rest myDir s
    rw [pathWalk]
    simp only []
    split
    · split
      · exact ⟨rfl, rfl, rfl, rfl, rfl, rfl, rfl, rfl, rfl⟩
      · split
        · exact ⟨rfl, rfl, rfl, rfl, rfl, rfl, rfl, rfl, rfl⟩
        · exact kept_trans ⟨rfl, rfl, rfl, rfl, rfl, rfl, rfl, rfl, rfl⟩ (ih _ _ _)
    · exact kept_refl s

theorem resolvePath_kept (drv : SdDriver V) (name : CStr) (s : State V) :
    Kept s (resolvePath drv name s).1 := by
  unfold resolvePath
  simp only []
  split
  · exact kept_trans ⟨rfl, rfl, rfl, rfl, rfl, rfl, rfl, rfl, rfl⟩ (pathWalk_kept drv _ _ _ _)
  · exact ⟨rfl, rfl, rfl, rfl, rfl, rfl, rfl, rfl, rfl⟩

theorem stopSDPrint_kept (s : State V) : Kept s (stopSDPrint s) := by
  unfold stopSDPrint
  simp only []
  split <;> exact ⟨rfl, rfl, rfl, rfl, rfl, rfl, rfl, rfl, rfl⟩

theorem stopSDPrint_sdlog (s : State V) : (stopSDPrint s).sdlog = s.sdlog := by
  unfold stopSDPrint
  simp only []
  split <;> rfl

theorem stopSDPrint_file (s : State V) : (stopSDPrint s).file = none := by
  unfold stopSDPrint isFileOpen
  simp only []
  split
  · rfl
  · rename_i h
    simpa using h

/-- The part of `openFile` after the procedure stack, in terms of the resolver. -/
theorem openFileFrom_eq (cfg : Config) (drv : SdDriver V) (name : CStr) (read : Bool)
    (s1 : State V) :
    Kept s1 (openFileFrom cfg drv name read s1)
      ∧ (openFileFrom cfg drv name read s1).sdlog
          = (resolvePath drv name (stopSDPrint s1)).1.sdlog
            ++ (match (resolvePath drv name (stopSDPrint s1)).2 with
                | none => []
                | some fname =>
                  [SdCall.openCall (resolvePath drv name (stopSDPrint s1)).1.curDir fname
                    (openFlag read)]) := by
  have hk := kept_trans (stopSDPrint_kept s1) (resolvePath_kept drv name (stopSDPrint s1))
  unfold openFileFrom
  simp only []
  generalize resolvePath drv name (stopSDPrint s1) = r at hk ⊢
  obtain ⟨s3, o⟩ := r
  cases o with
  | none => exact ⟨hk, by simp⟩
  | some fname =>
    simp only []
    cases read with
    | true =>
      simp only [if_true, openFlag]
      cases hopen : (drv.sdOpen s3.vol s3.file s3.curDir fname OFlag.O_READ).1 with
      | none => exact ⟨kept_trans hk ⟨rfl, rfl, rfl, rfl, rfl, rfl, rfl, rfl, rfl⟩, rfl⟩
      | some h =>
        simp only []
        have hf := getfilename_framed cfg drv 0 (some fname)
          ({ s3 with
              vol := (drv.sdOpen s3.vol s3.file s3.curDir fname OFlag.O_READ).2
              file := some h
              sdlog := s3.sdlog ++ [SdCall.openCall s3.curDir fname OFlag.O_READ]
              filesize := drv.fileSize (drv.sdOpen s3.vol s3.file s3.curDir fname OFlag.O_READ).2 h
                % 2 ^ 32
              sdpos := 0 } : State V)
        obtain ⟨_, _, _, _, _, _, _, _, _, _, _, he⟩ := hf
        rw [he]
        exact ⟨kept_trans hk ⟨rfl, rfl, rfl, rfl, rfl, rfl, rfl, rfl, rfl⟩, rfl⟩
    | false =>
      simp only [Bool.false_eq_true, if_false, openFlag]
      cases hopen : (drv.sdOpen s3.vol s3.file s3.curDir fname
          OFlag.O_CREAT_APPEND_WRITE_TRUNC).1 with
      | none => exact ⟨kept_trans hk ⟨rfl, rfl, rfl, rfl, rfl, rfl, rfl, rfl, rfl⟩, rfl⟩
      | some h => exact ⟨kept_trans hk ⟨rfl, rfl, rfl, rfl, rfl, rfl, rfl, rfl, rfl⟩, rfl⟩

theorem removeFile_sdlog (cfg : Config) (drv : SdDriver V) (name : CStr) (s : State V)
    (hc : s.cardOK = true) :
    (removeFile cfg drv name s).sdlog
      = (resolvePath drv name (stopSDPrint s)).1.sdlog
        ++ (match (resolvePath drv name (stopSDPrint s)).2 with
            | none => []
            | some fname =>
              [SdCall.removeCall (resolvePath drv name (stopSDPrint s)).1.curDir fname]) := by
  unfold removeFile
  simp only [hc, Bool.not_true, Bool.false_eq_true, if_false]
  generalize resolvePath drv name (stopSDPrint s) = r
  obtain ⟨s3, o⟩ := r
  cases o with
  | none => simp
  | some fname =>
    simp only []
    split
    · obtain ⟨_, _, _, _, _, _, _, _, _, _, _, he⟩ := presortIfEnabled_framed cfg drv
        ({ s3 with
            vol := (drv.sdRemove s3.vol s3.curDir fname).2
            sdlog := s3.sdlog ++ [SdCall.removeCall s3.curDir fname]
            sdpos := 0 } : State V)
      rw [he]
    · rfl

theorem flatMap_length_ge (segs : List CStr) :
    segs.length ≤ (segs.flatMap (fun seg => seg ++ [47])).length := by
  induction segs with
  | nil => simp
  | cons a r ih => simp only [List.flatMap_cons, List.length_append, List.length_cons,
      List.length_nil]; omega

/-- The resolver on an absolute path whose folder names fit `subdirname`. -/
theorem resolvePath_abs (drv : SdDriver V) (segs : List CStr) (f : CStr) (s : State V)
    (hs : ∀ seg ∈ segs, seg ≠ [] ∧ 47 ∉ seg ∧ seg.length < FILENAME_LENGTH) (hf : 47 ∉ f) :
    resolvePath drv (absPath segs f) s
      = ({ s with
            vol := (descendCalls drv segs s.vol none s.root).vol
            sdlog := s.sdlog ++ (descendCalls drv segs s.vol none s.root).calls
            curDir := (descendCalls drv segs s.vol none s.root).dir },
          if (descendCalls drv segs s.vol none s.root).ok then some f else none) := by
  unfold resolvePath absPath
  simp only [char0, if_true, List.drop_one, List.tail_cons]
  rw [pathWalk_spec drv segs f _ none _ hs hf
    (by have := flatMap_length_ge segs
        simp only [List.length_cons, List.length_append]; omega)]

/-- The resolver on a name that does not start with the separator. -/
theorem resolvePath_rel (drv : SdDriver V) (name : CStr) (s : State V) (h : char0 name ≠ 47) :
    resolvePath drv name s = ({ s with curDir := s.workDir }, some name) := by
  unfold resolvePath
  simp only [h, if_false]

/-- Where `openFile` hands over to the resolver. -/
theorem openFile_eq_from (cfg : Config) (drv : SdDriver V) (name : CStr) (read push : Bool)
    (s : State V) (hc : s.cardOK = true)
    (hp : push = true → s.file.isSome = true → s.file_subcall_ctr < SD_PROCEDURE_DEPTH) :
    ∃ s1 : State V, openFile cfg drv name read push s = openFileFrom cfg drv name read s1
      ∧ s1.vol = s.vol ∧ s1.root = s.root ∧ s1.workDir = s.workDir ∧ s1.sdlog = s.sdlog := by
  unfold openFile
  simp only [hc, Bool.not_true, Bool.false_eq_true, if_false, isFileOpen]
  by_cases hk : (s.file.isSome && push && decide (s.file_subcall_ctr > SD_PROCEDURE_DEPTH - 1))
      = true
  · exfalso
    simp only [Bool.and_eq_true, decide_eq_true_eq] at hk
    have := hp hk.1.2 hk.1.1
    simp only [SD_PROCEDURE_DEPTH] at this hk
    omega
  · simp only [hk, if_false]
    exact ⟨_, rfl, by split <;> [split; skip] <;> rfl, by split <;> [split; skip] <;> rfl,
      by split <;> [split; skip] <;> rfl, by split <;> [split; skip] <;> rfl⟩

theorem stopSDPrint_fields (s : State V) :
    (stopSDPrint s).vol = s.vol ∧ (stopSDPrint s).root = s.root
      ∧ (stopSDPrint s).workDir = s.workDir ∧ (stopSDPrint s).sdlog = s.sdlog := by
  unfold stopSDPrint
  simp only []
  split <;> exact ⟨rfl, rfl, rfl, rfl⟩

/-- A push at full depth with the card usable: `kill` and nothing else. -/
theorem openFile_full (cfg : Config) (drv : SdDriver V) (name : CStr) (read : Bool)
    (s : State V) (hc : s.cardOK = true) (hf : s.file.isSome = true)
    (hd : s.file_subcall_ctr = SD_PROCEDURE_DEPTH) :
    openFile cfg drv name read true s = { s with killed := true } := by
  unfold openFile
  simp [hc, hf, hd, isFileOpen, SD_PROCEDURE_DEPTH]

/-- A push at depth 0: the frame is stored at index 0 and the depth becomes 1. -/
theorem openFile_push (cfg : Config) (drv : SdDriver V) (name : CStr) (read : Bool)
    (s : State V) (hc : s.cardOK = true) (hf : s.file.isSome = true)
    (hd : s.file_subcall_ctr = 0) :
    openFile cfg drv name read true s
      = openFileFrom cfg drv name read
          { s with
            proc_filenames := Function.update s.proc_filenames 0 (getAbsFilename drv s)
            filespos := Function.update s.filespos 0 s.sdpos
            file_subcall_ctr := 1 } := by
  unfold openFile
  simp [hc, hf, hd, isFileOpen, SD_PROCEDURE_DEPTH]

/-- With no file open `openFile` starts a fresh session at depth 0. -/
theorem openFile_fresh (cfg : Config) (drv : SdDriver V) (name : CStr) (read push : Bool)
    (s : State V) (hc : s.cardOK = true) (hf : s.file = none) :
    openFile cfg drv name read push s
      = openFileFrom cfg drv name read { s with file_subcall_ctr := 0 } := by
  unfold openFile
  simp [hc, hf, isFileOpen]

/-- With a file open and no push, `openFile` goes on with the state as it is. -/
theorem openFile_replace (cfg : Config) (drv : SdDriver V) (name : CStr) (read : Bool)
    (s : State V) (hc : s.cardOK = true) (hf : s.file.isSome = true) :
    openFile cfg drv name read false s = openFileFrom cfg drv name read s := by
  unfold openFile
  simp [hc, hf, isFileOpen]

theorem startFileprint_fields (cfg : Config) (s : State V) (hc : s.cardOK = true) :
    (startFileprint cfg s).sdprinting = true ∧ (startFileprint cfg s).sdpos = s.sdpos
      ∧ (startFileprint cfg s).file_subcall_ctr = s.file_subcall_ctr
      ∧ (startFileprint cfg s).file = s.file := by
  unfold startFileprint
  simp only [hc, if_true, flush_presort_eq]
  split <;> exact ⟨rfl, rfl, rfl, rfl⟩

/-- What `printingHasFinished` does after a push from depth 0. -/
theorem finish_after_push (cfg : Config) (drv : SdDriver V) (name : CStr) (p : Nat)
    (t : State V) (hc : t.cardOK = true) (hd : t.file_subcall_ctr = 1)
    (hn : t.proc_filenames 0 = name) (hp : t.filespos 0 = p) :
    printingHasFinished cfg drv t
      = startFileprint cfg (setIndex drv p
          (openFile cfg drv name true false { t with file := none, file_subcall_ctr := 0 })) := by
  have hk := (openFileFrom_eq cfg drv name true
    ({ t with file := none, file_subcall_ctr := 0 } : State V)).1
  have e1 : openFile cfg drv name true true ({ t with file := none, file_subcall_ctr := 0 } : State V)
      = openFileFrom cfg drv name true { t with file := none, file_subcall_ctr := 0 } :=
    openFile_fresh cfg drv name true true _ hc rfl
  have e2 : openFile cfg drv name true false
        ({ t with file := none, file_subcall_ctr := 0 } : State V)
      = openFileFrom cfg drv name true { t with file := none, file_subcall_ctr := 0 } :=
    openFile_fresh cfg drv name true false _ hc rfl
  unfold printingHasFinished
  simp only [hd, Nat.lt_irrefl, Nat.zero_lt_one, gt_iff_lt, if_true, Nat.sub_self, hn]
  rw [e1, e2, hk.2.1, hk.2.2.2.1]
  simp only [hp]

/-! ## The procedure stack -/

/-- C6, the claim as worded fails in two ways. (1) After `release()` a file is still open
at depth `SD_PROCEDURE_DEPTH`, and `openFile(name, true, true)` returns without `kill`.
(2) From a file read at depth 0, a push whose callee does not open followed by a second
push does not reach `kill` either: the second call finds no file open, takes the fresh
branch, and the depth is back at 0 with the caller's frame off the stack. -/
theorem C6_counterexample_no_kill :
    ((release (openFile stockConfig treeDriver (str "/SUBDIR/PART.GCO") true true
          (reading "/MAIN.GCO" 42))).file.isSome = true
      ∧ (release (openFile stockConfig treeDriver (str "/SUBDIR/PART.GCO") true true
          (reading "/MAIN.GCO" 42))).file_subcall_ctr = SD_PROCEDURE_DEPTH
      ∧ (openFile stockConfig treeDriver (str "/MAIN.GCO") true true
          (release (openFile stockConfig treeDriver (str "/SUBDIR/PART.GCO") true true
            (reading "/MAIN.GCO" 42)))).killed = false)
    ∧ ((reading "/MAIN.GCO" 42).file.isSome = true
      ∧ (reading "/MAIN.GCO" 42).file_subcall_ctr = 0
      ∧ (openFile stockConfig treeDriver (str "/SUBDIR/PART.GCO") true true
          (openFile stockConfig treeDriver (str "/NOFILE.GCO") true true
            (reading "/MAIN.GCO" 42))).killed = false
      ∧ (openFile stockConfig treeDriver (str "/SUBDIR/PART.GCO") true true
          (openFile stockConfig treeDriver (str "/NOFILE.GCO") true true
            (reading "/MAIN.GCO" 42))).file_subcall_ctr = 0) := by
  decide

/-- C6, amended: with the card usable and a file open, `openFile(name, read, true)` at
depth `SD_PROCEDURE_DEPTH` calls `kill` and changes nothing else (no push, the frames, the
depth and the open file stay); and from depth 0 a push whose callee opens leaves depth 1
with the frame (absolute name, `sdpos`) at index 0, after which a further push calls
`kill` and leaves that frame as it is. -/
theorem C6_push_at_full_depth_kills (cfg : Config) (drv : SdDriver V) (name callee : CStr)
    (read : Bool) (s : State V) (hc : s.cardOK = true) (hf : s.file.isSome = true) :
    (s.file_subcall_ctr = SD_PROCEDURE_DEPTH →
        openFile cfg drv name read true s = { s with killed := true })
      ∧ (s.file_subcall_ctr = 0 →
          (openFile cfg drv callee true true s).file.isSome = true →
          (openFile cfg drv callee true true s).file_subcall_ctr = 1
            ∧ (openFile cfg drv callee true true s).proc_filenames 0 = getAbsFilename drv s
            ∧ (openFile cfg drv callee true true s).filespos 0 = s.sdpos
            ∧ (openFile cfg drv callee true true s).killed = s.killed
            ∧ openFile cfg drv name read true (openFile cfg drv callee true true s)
                = { openFile cfg drv callee true true s with killed := true }) := by
  refine ⟨openFile_full cfg drv name read s hc hf, fun hd ht => ?_⟩
  have hk := (openFileFrom_eq cfg drv callee true
    ({ s with
        proc_filenames := Function.update s.proc_filenames 0 (getAbsFilename drv s)
        filespos := Function.update s.filespos 0 s.sdpos
        file_subcall_ctr := 1 } : State V)).1
  rw [← openFile_push cfg drv callee true s hc hf hd] at hk
  obtain ⟨k1, k2, k3, k4, k5, _, _⟩ := hk
  refine ⟨k2, ?_, ?_, k5, openFile_full cfg drv name read _ (k1.trans hc) ht k2⟩
  · rw [k3]; simp
  · rw [k4]; simp

/-- C6 at a concrete session: `/MAIN.GCO` read at offset 42 calls `/SUBDIR/PART.GCO`, and a
second call from there is fatal. -/
theorem C6_push_at_full_depth_kills_witness :
    (reading "/MAIN.GCO" 42).cardOK = true ∧ (reading "/MAIN.GCO" 42).file.isSome = true
      ∧ (openFile stockConfig treeDriver (str "/SUBDIR/PART.GCO") true true
          (reading "/MAIN.GCO" 42)).file_subcall_ctr = 1
      ∧ (openFile stockConfig treeDriver (str "/SUBDIR/PART.GCO") true true
          (reading "/MAIN.GCO" 42)).filespos 0 = 42
      ∧ (openFile stockConfig treeDriver (str "/MAIN.GCO") true true
          (openFile stockConfig treeDriver (str "/SUBDIR/PART.GCO") true true
            (reading "/MAIN.GCO" 42))).killed = true :=
  have h := (C6_push_at_full_depth_kills stockConfig treeDriver (str "/MAIN.GCO")
    (str "/SUBDIR/PART.GCO") true (reading "/MAIN.GCO" 42) (by decide) (by decide)).2
      (by decide) (by decide)
  ⟨by decide, by decide, h.1, h.2.2.1, by rw [h.2.2.2.2]⟩

/-- C7, the code differs from the claim: `/SUBDIR/PART.GCO`, read at offset 42 with the
root as working directory, calls `/MAIN.GCO`. The name that `getAbsFilename` saves is
`/PART.GCO` (the names of the parents of the working directory and the short name of the
file), not the path of the caller; it does not open, so that after
`printingHasFinished()` no file is open and the caller is not read again. -/
theorem C7_counterexample_caller_not_reopened :
    (reading "/SUBDIR/PART.GCO" 42).file = some 3
      ∧ (reading "/SUBDIR/PART.GCO" 42).file_subcall_ctr = 0
      ∧ (openFile stockConfig treeDriver (str "/MAIN.GCO") true true
          (reading "/SUBDIR/PART.GCO" 42)).file = some 2
      ∧ (openFile stockConfig treeDriver (str "/MAIN.GCO") true true
          (reading "/SUBDIR/PART.GCO" 42)).proc_filenames 0 = str "/PART.GCO"
      ∧ (printingHasFinished stockConfig treeDriver
          (openFile stockConfig treeDriver (str "/MAIN.GCO") true true
            (reading "/SUBDIR/PART.GCO" 42))).file = none := by
  decide

/-- C7, what the code does: with the card usable, a file read at offset `p` at a depth below
`SD_PROCEDURE_DEPTH` (that is, at depth 0), `openFile(callee, true, true)` followed by
`printingHasFinished()` is: close the callee, open the saved name `getAbsFilename` as a
fresh file, seek to `p`, start reading. The depth is back at what it was, `sdpos` is `p`
and `sdprinting` is set; the file is the one the driver gives for the saved name. -/
theorem C7_push_then_finish_restores (cfg : Config) (drv : SdDriver V) (callee : CStr)
    (s : State V) (hc : s.cardOK = true) (hf : s.file.isSome = true)
    (hd : s.file_subcall_ctr < SD_PROCEDURE_DEPTH) :
    printingHasFinished cfg drv (openFile cfg drv callee true true s)
        = startFileprint cfg (setIndex drv s.sdpos
            (openFile cfg drv (getAbsFilename drv s) true false
              { openFile cfg drv callee true true s with
                file := none, file_subcall_ctr := 0 }))
      ∧ (printingHasFinished cfg drv (openFile cfg drv callee true true s)).file_subcall_ctr
          = s.file_subcall_ctr
      ∧ (printingHasFinished cfg drv (openFile cfg drv callee true true s)).sdpos = s.sdpos
      ∧ (printingHasFinished cfg drv (openFile cfg drv callee true true s)).sdprinting
          = true := by
  have hd0 : s.file_subcall_ctr = 0 := by
    simp only [SD_PROCEDURE_DEPTH] at hd; omega
  have hk := (openFileFrom_eq cfg drv callee true
    ({ s with
        proc_filenames := Function.update s.proc_filenames 0 (getAbsFilename drv s)
        filespos := Function.update s.filespos 0 s.sdpos
        file_subcall_ctr := 1 } : State V)).1
  rw [← openFile_push cfg drv callee true s hc hf hd0] at hk
  obtain ⟨k1, k2, k3, k4, _, _, _⟩ := hk
  have e := finish_after_push cfg drv (getAbsFilename drv s) s.sdpos
    (openFile cfg drv callee true true s) (k1.trans hc) k2 (by rw [k3]; simp) (by rw [k4]; simp)
  have hr : openFile cfg drv (getAbsFilename drv s) true false
        ({ openFile cfg drv callee true true s with file := none, file_subcall_ctr := 0 } : State V)
      = openFileFrom cfg drv (getAbsFilename drv s) true
        { openFile cfg drv callee true true s with file := none, file_subcall_ctr := 0 } :=
    openFile_fresh cfg drv _ true false _ (k1.trans hc) rfl
  have hk2 := (openFileFrom_eq cfg drv (getAbsFilename drv s) true
    ({ openFile cfg drv callee true true s with file := none, file_subcall_ctr := 0 } :
      State V)).1
  rw [← hr] at hk2
  have hs := startFileprint_fields cfg (setIndex drv s.sdpos
    (openFile cfg drv (getAbsFilename drv s) true false
      { openFile cfg drv callee true true s with file := none, file_subcall_ctr := 0 }))
    (hk2.1.trans (k1.trans hc))
  rw [e]
  exact ⟨rfl, by rw [hs.2.2.1, hd0]; exact hk2.2.1, hs.2.1, hs.1⟩

/-- C7 at a concrete session: `/MAIN.GCO` read at offset 42 calls `/SUBDIR/PART.GCO`;
when that file has finished, `/MAIN.GCO` is open again at offset 42 and depth 0. -/
theorem C7_push_then_finish_restores_witness :
    (reading "/MAIN.GCO" 42).cardOK = true ∧ (reading "/MAIN.GCO" 42).file.isSome = true
      ∧ (reading "/MAIN.GCO" 42).file_subcall_ctr < SD_PROCEDURE_DEPTH
      ∧ (printingHasFinished stockConfig treeDriver
          (openFile stockConfig treeDriver (str "/SUBDIR/PART.GCO") true true
            (reading "/MAIN.GCO" 42))).file_subcall_ctr = 0
      ∧ (printingHasFinished stockConfig treeDriver
          (openFile stockConfig treeDriver (str "/SUBDIR/PART.GCO") true true
            (reading "/MAIN.GCO" 42))).sdpos = 42
      ∧ (printingHasFinished stockConfig treeDriver
          (openFile stockConfig treeDriver (str "/SUBDIR/PART.GCO") true true
            (reading "/MAIN.GCO" 42))).sdprinting = true
      ∧ (printingHasFinished stockConfig treeDriver
          (openFile stockConfig treeDriver (str "/SUBDIR/PART.GCO") true true
            (reading "/MAIN.GCO" 42))).file = some 2 :=
  have h := C7_push_then_finish_restores stockConfig treeDriver (str "/SUBDIR/PART.GCO")
    (reading "/MAIN.GCO" 42) (by decide) (by decide) (by decide)
  ⟨by decide, by decide, by decide, h.2.1, h.2.2.1, h.2.2.2, by decide⟩

/-- C8, the code differs from the claim: with the card usable and a file open,
`openFile(name, read, false)` leaves `file_subcall_ctr` as it was; only the branch for no
open file resets it. -/
theorem C8_replace_keeps_depth (cfg : Config) (drv : SdDriver V) (name : CStr) (read : Bool)
    (s : State V) (hc : s.cardOK = true) (hf : s.file.isSome = true) :
    (openFile cfg drv name read false s).file_subcall_ctr = s.file_subcall_ctr := by
  rw [openFile_replace cfg drv name read s hc hf]
  exact (openFileFrom_eq cfg drv name read s).1.2.1

/-- C8 at a concrete session: inside the call of `/SUBDIR/PART.GCO` from `/MAIN.GCO`
the depth is 1, and it is still 1 after `openFile("/MAIN.GCO", true, false)`. -/
theorem C8_replace_keeps_depth_witness :
    (openFile stockConfig treeDriver (str "/SUBDIR/PART.GCO") true true
        (reading "/MAIN.GCO" 42)).cardOK = true
      ∧ (openFile stockConfig treeDriver (str "/SUBDIR/PART.GCO") true true
        (reading "/MAIN.GCO" 42)).file.isSome = true
      ∧ (openFile stockConfig treeDriver (str "/SUBDIR/PART.GCO") true true
        (reading "/MAIN.GCO" 42)).file_subcall_ctr = 1
      ∧ (openFile stockConfig treeDriver (str "/MAIN.GCO") true false
          (openFile stockConfig treeDriver (str "/SUBDIR/PART.GCO") true true
            (reading "/MAIN.GCO" 42))).file_subcall_ctr = 1 :=
  ⟨by decide, by decide, by decide,
    (C8_replace_keeps_depth stockConfig treeDriver (str "/MAIN.GCO") true
      (openFile stockConfig treeDriver (str "/SUBDIR/PART.GCO") true true
        (reading "/MAIN.GCO" 42)) (by decide) (by decide)).trans (by decide)⟩

/-! ## The path resolver in `openFile` and `removeFile` -/

/-- When every folder opens, `descendCalls` is one request per folder, in order, each in
the folder opened by the request before it, and it ends in the last folder opened. -/
theorem descendCalls_chain (drv : SdDriver V) (segs : List CStr) :
    ∀ (vol : V) (myDir dir : SdFile), (descendCalls drv segs vol myDir dir).ok = true →
      ∃ hs : List Nat, hs.length = segs.length
        ∧ (descendCalls drv segs vol myDir dir).calls
            = List.zipWith (fun d seg => SdCall.openCall d seg OFlag.O_READ)
                (dir :: hs.map some) segs
        ∧ (descendCalls drv segs vol myDir dir).dir = (dir :: hs.map some).getLast (by simp) := by
  induction segs with
  | nil => intro vol myDir dir _; exact ⟨[], rfl, rfl, rfl⟩
  | cons seg rest ih =>
    intro vol myDir dir hok
    rw [descendCalls] at hok ⊢
    cases hopen : drv.sdOpen vol myDir dir seg OFlag.O_READ with
    | mk r1 r2 =>
      cases r1 with
      | none => rw [hopen] at hok; simp at hok
      | some h =>
        rw [hopen] at hok
        simp only [] at hok ⊢
        obtain ⟨hs, h1, h2, h3⟩ := ih r2 (some h) (some h) hok
        refine ⟨h :: hs, by simp [h1], ?_, ?_⟩
        · rw [h2]; rfl
        · rw [h3]; simp

theorem openFile_sdlog (cfg : Config) (drv : SdDriver V) (name : CStr) (read push : Bool)
    (s : State V) (hc : s.cardOK = true)
    (hp : push = true → s.file.isSome = true → s.file_subcall_ctr < SD_PROCEDURE_DEPTH) :
    ∃ s2 : State V, s2.vol = s.vol ∧ s2.root = s.root ∧ s2.workDir = s.workDir
      ∧ s2.sdlog = s.sdlog
      ∧ (openFile cfg drv name read push s).sdlog
          = (resolvePath drv name s2).1.sdlog
            ++ (match (resolvePath drv name s2).2 with
                | none => []
                | some fname =>
                  [SdCall.openCall (resolvePath drv name s2).1.curDir fname (openFlag read)]) := by
  obtain ⟨s1, e, a1, a2, a3, a4⟩ := openFile_eq_from cfg drv name read push s hc hp
  obtain ⟨b1, b2, b3, b4⟩ := stopSDPrint_fields s1
  exact ⟨stopSDPrint s1, b1.trans a1, b2.trans a2, b3.trans a3, b4.trans a4,
    by rw [e]; exact (openFileFrom_eq cfg drv name read s1).2⟩

/-- C9, the code differs from the claim for a folder name of `FILENAME_LENGTH` (13) chars
or more: `/CALIBRATION_PRINTS/PART.GCO` has a first segment of 18 chars, which `openFile`
and `removeFile` copy into `char subdirname[13]`; the copy runs over the end of the
buffer before any folder is opened. -/
theorem C9_long_folder_name_overruns :
    (openFile stockConfig treeDriver (str "/CALIBRATION_PRINTS/PART.GCO") true false
        (mounted ())).overrun = true
      ∧ (openFile stockConfig treeDriver (str "/CALIBRATION_PRINTS/PART.GCO") true false
        (mounted ())).sdlog = []
      ∧ (removeFile stockConfig treeDriver (str "/CALIBRATION_PRINTS/PART.GCO")
        (mounted ())).overrun = true
      ∧ (removeFile stockConfig treeDriver (str "/CALIBRATION_PRINTS/PART.GCO")
        (mounted ())).sdlog = [] := by
  decide

/-- X1, the resolver on an absolute path `/s1/.../sn/f` whose folder names are not empty
and fit `subdirname` (fewer than `FILENAME_LENGTH` chars), `f` free of separators: with
the card usable, `openFile` and `removeFile` send to the driver the requests of
`descendCalls` from the root, then, when every folder opened, the open (or the remove) of
`f` as it is in the last folder; and when every folder opens these are one request per
folder, in order, each in the folder opened just before. -/
theorem X1_absolute_path_resolution (cfg : Config) (drv : SdDriver V) (segs : List CStr)
    (f : CStr) (read push : Bool) (s : State V)
    (hs : ∀ seg ∈ segs, seg ≠ [] ∧ 47 ∉ seg ∧ seg.length < FILENAME_LENGTH) (hf : 47 ∉ f)
    (hc : s.cardOK = true)
    (hp : push = true → s.file.isSome = true → s.file_subcall_ctr < SD_PROCEDURE_DEPTH) :
    (openFile cfg drv (absPath segs f) read push s).sdlog
        = s.sdlog ++ (descendCalls drv segs s.vol none s.root).calls
          ++ (if (descendCalls drv segs s.vol none s.root).ok then
                [SdCall.openCall (descendCalls drv segs s.vol none s.root).dir f (openFlag read)]
              else [])
      ∧ (removeFile cfg drv (absPath segs f) s).sdlog
        = s.sdlog ++ (descendCalls drv segs s.vol none s.root).calls
          ++ (if (descendCalls drv segs s.vol none s.root).ok then
                [SdCall.removeCall (descendCalls drv segs s.vol none s.root).dir f]
              else [])
      ∧ ((descendCalls drv segs s.vol none s.root).ok = true →
          ∃ hs : List Nat, hs.length = segs.length
            ∧ (descendCalls drv segs s.vol none s.root).calls
                = List.zipWith (fun d seg => SdCall.openCall d seg OFlag.O_READ)
                    (s.root :: hs.map some) segs
            ∧ (descendCalls drv segs s.vol none s.root).dir
                = (s.root :: hs.map some).getLast (by simp)) := by
  refine ⟨?_, ?_, descendCalls_chain drv segs s.vol none s.root⟩
  · obtain ⟨s2, a1, a2, _, a4, e⟩ := openFile_sdlog cfg drv (absPath segs f) read push s hc hp
    rw [e, resolvePath_abs drv segs f s2 hs hf, a1, a2, a4]
    cases (descendCalls drv segs s.vol none s.root).ok <;> simp
  · obtain ⟨b1, b2, _, b4⟩ := stopSDPrint_fields s
    rw [removeFile_sdlog cfg drv (absPath segs f) s hc,
      resolvePath_abs drv segs f (stopSDPrint s) hs hf, b1, b2, b4]
    cases (descendCalls drv segs s.vol none s.root).ok <;> simp

/-- X1 at the path `/SUBDIR/PART.GCO`: `SUBDIR` is opened in the root directory, then
`PART.GCO` is opened, or removed, in `SUBDIR`. -/
theorem X1_absolute_path_resolution_witness :
    absPath [str "SUBDIR"] (str "PART.GCO") = str "/SUBDIR/PART.GCO"
      ∧ (∀ seg ∈ [str "SUBDIR"], seg ≠ [] ∧ 47 ∉ seg ∧ seg.length < FILENAME_LENGTH)
      ∧ 47 ∉ str "PART.GCO"
      ∧ (openFile stockConfig treeDriver (str "/SUBDIR/PART.GCO") true false (mounted ())).sdlog
          = [SdCall.openCall (some 0) (str "SUBDIR") OFlag.O_READ,
              SdCall.openCall (some 1) (str "PART.GCO") OFlag.O_READ]
      ∧ (removeFile stockConfig treeDriver (str "/SUBDIR/PART.GCO") (mounted ())).sdlog
          = [SdCall.openCall (some 0) (str "SUBDIR") OFlag.O_READ,
              SdCall.removeCall (some 1) (str "PART.GCO")] :=
  have h := X1_absolute_path_resolution stockConfig treeDriver [str "SUBDIR"] (str "PART.GCO")
    true false (mounted ()) (by decide) (by decide) rfl (by decide)
  ⟨by decide, by decide, by decide, h.1.trans (by decide), h.2.1.trans (by decide)⟩

/-- C10, the claim as worded fails: the relative name `SUBDIR/PART.GCO` is not split.
`openFile` and `removeFile` send one request to the driver, for the whole string in the
working directory, and no folder is opened. -/
theorem C10_counterexample_relative_not_split :
    (openFile stockConfig treeDriver (str "SUBDIR/PART.GCO") true false (mounted ())).sdlog
        = [SdCall.openCall (mounted ()).workDir (str "SUBDIR/PART.GCO") OFlag.O_READ]
      ∧ (removeFile stockConfig treeDriver (str "SUBDIR/PART.GCO") (mounted ())).sdlog
        = [SdCall.removeCall (mounted ()).workDir (str "SUBDIR/PART.GCO")] := by
  decide

/-- C10, amended: for a name that does not start with the separator, and the card usable,
resolution starts at the working directory and stops there: `openFile` and `removeFile`
send one request to the driver, the open (or the remove) of the whole name, separators
included, in the working directory. -/
theorem C10_relative_name_whole (cfg : Config) (drv : SdDriver V) (name : CStr)
    (read push : Bool) (s : State V) (hn : char0 name ≠ 47) (hc : s.cardOK = true)
    (hp : push = true → s.file.isSome = true → s.file_subcall_ctr < SD_PROCEDURE_DEPTH) :
    (openFile cfg drv name read push s).sdlog
        = s.sdlog ++ [SdCall.openCall s.workDir name (openFlag read)]
      ∧ (removeFile cfg drv name s).sdlog = s.sdlog ++ [SdCall.removeCall s.workDir name] := by
  constructor
  · obtain ⟨s2, _, _, a3, a4, e⟩ := openFile_sdlog cfg drv name read push s hc hp
    rw [e, resolvePath_rel drv name s2 hn]
    simp only [a3, a4]
  · obtain ⟨_, _, b3, b4⟩ := stopSDPrint_fields s
    rw [removeFile_sdlog cfg drv name s hc, resolvePath_rel drv name (stopSDPrint s) hn]
    simp only [b3, b4]

/-- C10 at the name `MAIN.GCO` with the root as working directory. -/
theorem C10_relative_name_whole_witness :
    char0 (str "MAIN.GCO") ≠ 47 ∧ (mounted ()).cardOK = true
      ∧ (openFile stockConfig treeDriver (str "MAIN.GCO") true false (mounted ())).sdlog
          = [SdCall.openCall (some 0) (str "MAIN.GCO") OFlag.O_READ]
      ∧ (removeFile stockConfig treeDriver (str "MAIN.GCO") (mounted ())).sdlog
          = [SdCall.removeCall (some 0) (str "MAIN.GCO")] :=
  have h := C10_relative_name_whole stockConfig treeDriver (str "MAIN.GCO") true false
    (mounted ()) (by decide) rfl (by decide)
  ⟨by decide, rfl, h.1, h.2⟩

/-! ## The stack of working directories -/

theorem framed_depth {s t : State V} (h : Framed s t) : t.workDirDepth = s.workDirDepth := by
  obtain ⟨_, _, _, _, _, _, _, _, _, _, _, rfl⟩ := h
  rfl

theorem framed_parents {s t : State V} (h : Framed s t) :
    t.workDirParents = s.workDirParents := by
  obtain ⟨_, _, _, _, _, _, _, _, _, _, _, rfl⟩ := h
  rfl

theorem framed_workDir {s t : State V} (h : Framed s t) : t.workDir = s.workDir := by
  obtain ⟨_, _, _, _, _, _, _, _, _, _, _, rfl⟩ := h
  rfl

/-! ## A deletion that fails -/

theorem pathWalk_frame (drv : SdDriver V) (n : Nat) :
    ∀ (rest : CStr) (myDir : SdFile) (s : State V),
      ∃ cur vol log ov, (pathWalk drv n rest myDir s).1
        = { s with curDir := cur, vol := vol, sdlog := log, overrun := ov } := by
  induction n with
  | zero => intro rest myDir s; exact ⟨_, _, _, _, rfl⟩
  | succ n ih =>
    intro rest myDir s
    rw [pathWalk]
    simp only []
    split
    · split
      · exact ⟨_, _, _, _, rfl⟩
      · split
        · exact ⟨_, _, _, _, rfl⟩
        · rename_i h _
          obtain ⟨a, b, c, d, e⟩ := ih (List.drop 1 (List.dropWhile (fun c => c != 47) rest))
            (some h)
            ({ s with
                vol := (drv.sdOpen s.vol myDir s.curDir
                  (List.takeWhile (fun c => c != 47) rest) OFlag.O_READ).2
                sdlog := s.sdlog ++ [SdCall.openCall s.curDir
                  (List.takeWhile (fun c => c != 47) rest) OFlag.O_READ]
                curDir := some h } : State V)
          exact ⟨a, b, c, d, e⟩
    · exact ⟨_, _, _, _, rfl⟩

theorem resolvePath_frame (drv : SdDriver V) (name : CStr) (s : State V) :
    ∃ cur vol log ov, (resolvePath drv name s).1
      = { s with curDir := cur, vol := vol, sdlog := log, overrun := ov } := by
  unfold resolvePath
  simp only []
  split
  · obtain ⟨a, b, c, d, e⟩ := pathWalk_frame drv name.length (name.drop 1) none
      ({ s with curDir := s.root } : State V)
    exact ⟨a, b, c, d, e⟩
  · exact ⟨_, _, _, _, rfl⟩

/-- What a deletion that fails leaves: the state after `stopSDPrint()`, apart from the
scratch pointer `curDir` and what the driver was asked meanwhile. -/
theorem removeFile_failed (cfg : Config) (drv : SdDriver V) (name : CStr) (s : State V)
    (hc : s.cardOK = true) (hf : removeFails drv name s = true) :
    ∃ cur vol log ov, removeFile cfg drv name s
      = { stopSDPrint s with curDir := cur, vol := vol, sdlog := log, overrun := ov } := by
  obtain ⟨a, b, c, d, e⟩ := resolvePath_frame drv name (stopSDPrint s)
  unfold removeFails at hf
  unfold removeFile
  simp only [hc, Bool.not_true, Bool.false_eq_true, if_false]
  generalize resolvePath drv name (stopSDPrint s) = r at e hf
  obtain ⟨s3, o⟩ := r
  simp only [] at e
  cases o with
  | none => exact ⟨a, b, c, d, e⟩
  | some fname =>
    simp only [Bool.not_eq_true'] at hf
    simp only [hf, Bool.false_eq_true, if_false]
    rw [e]
    exact ⟨_, _, _, _, rfl⟩

/-- C12, the claim as worded fails: `/MAIN.GCO` is being read at offset 42 when the
deletion of `/NOFILE.GCO` fails; after it no file is open and `sdprinting` is false. -/
theorem C12_counterexample_print_stopped :
    (reading "/MAIN.GCO" 42).file = some 2 ∧ (reading "/MAIN.GCO" 42).sdprinting = true
      ∧ removeFails treeDriver (str "/NOFILE.GCO") (reading "/MAIN.GCO" 42) = true
      ∧ (removeFile stockConfig treeDriver (str "/NOFILE.GCO") (reading "/MAIN.GCO" 42)).file
          = none
      ∧ (removeFile stockConfig treeDriver (str "/NOFILE.GCO")
          (reading "/MAIN.GCO" 42)).sdprinting = false := by
  decide

/-- C12, amended: with the card usable, a deletion that fails (a folder of the path does
not open, or the remove of the driver fails) and that does not overrun `subdirname` has
run `stopSDPrint()` first: the open file is closed and `sdprinting` is false. `sdpos`,
`filesize`, `saving`, `logging`, the procedure stack, the working directory and the
sort table are as before the call. -/
theorem C12_failed_removeFile (cfg : Config) (drv : SdDriver V) (name : CStr) (s : State V)
    (hc : s.cardOK = true) (hf : removeFails drv name s = true)
    (_hov : (removeFile cfg drv name s).overrun = s.overrun) :
    (removeFile cfg drv name s).file = none
      ∧ (removeFile cfg drv name s).sdprinting = false
      ∧ (removeFile cfg drv name s).sdpos = s.sdpos
      ∧ (removeFile cfg drv name s).filesize = s.filesize
      ∧ (removeFile cfg drv name s).saving = s.saving
      ∧ (removeFile cfg drv name s).logging = s.logging
      ∧ (removeFile cfg drv name s).file_subcall_ctr = s.file_subcall_ctr
      ∧ (removeFile cfg drv name s).proc_filenames = s.proc_filenames
      ∧ (removeFile cfg drv name s).filespos = s.filespos
      ∧ (removeFile cfg drv name s).workDir = s.workDir
      ∧ (removeFile cfg drv name s).sort_count = s.sort_count
      ∧ (removeFile cfg drv name s).sort_order = s.sort_order := by
  obtain ⟨a, b, c, d, e⟩ := removeFile_failed cfg drv name s hc hf
  rw [e]
  refine ⟨stopSDPrint_file s, ?_⟩
  unfold stopSDPrint
  simp only []
  split <;> exact ⟨rfl, rfl, rfl, rfl, rfl, rfl, rfl, rfl, rfl, rfl, rfl⟩

/-- C12 at the session that reads `/MAIN.GCO` at offset 42 when the deletion of
`/NOFILE.GCO` fails. -/
theorem C12_failed_removeFile_witness :
    (reading "/MAIN.GCO" 42).cardOK = true
      ∧ removeFails treeDriver (str "/NOFILE.GCO") (reading "/MAIN.GCO" 42) = true
      ∧ (removeFile stockConfig treeDriver (str "/NOFILE.GCO") (reading "/MAIN.GCO" 42)).sdpos
          = 42
      ∧ (removeFile stockConfig treeDriver (str "/NOFILE.GCO")
          (reading "/MAIN.GCO" 42)).file_subcall_ctr = 0 :=
  have h := C12_failed_removeFile stockConfig treeDriver (str "/NOFILE.GCO")
    (reading "/MAIN.GCO" 42) (by decide) (by decide) (by decide)
  ⟨by decide, by decide, h.2.2.1, h.2.2.2.2.2.2.1⟩

/-! ## The depth of the working directory -/

/-- C13, the claim as worded fails for `openLogFile`: on a released card (`cardOK` false,
`logging` false) `openLogFile` sets `logging`. -/
theorem C13_counterexample_openLogFile_sets_logging :
    (release (mounted ())).cardOK = false ∧ (release (mounted ())).logging = false
      ∧ (openLogFile stockConfig treeDriver (str "LOG.TXT") (release (mounted ()))).logging
          = true := by
  decide

/-- C13, amended: with `cardOK` false, `openFile`, `removeFile` and `startFileprint`
return the state as it is, and `openLogFile` sets `logging` and changes nothing else. -/
theorem C13_card_not_usable (cfg : Config) (drv : SdDriver V) (name : CStr)
    (read push : Bool) (s : State V) (hc : s.cardOK = false) :
    openFile cfg drv name read push s = s ∧ removeFile cfg drv name s = s
      ∧ startFileprint cfg s = s
      ∧ openLogFile cfg drv name s = { s with logging := true } := by
  refine ⟨?_, ?_, ?_, ?_⟩
  · unfold openFile; simp [hc]
  · unfold removeFile; simp [hc]
  · unfold startFileprint; simp [hc]
  · unfold openLogFile openFile; simp [hc]

/-- C13 at the released card. -/
theorem C13_card_not_usable_witness :
    (release (mounted ())).cardOK = false
      ∧ openFile stockConfig treeDriver (str "/MAIN.GCO") true false (release (mounted ()))
          = release (mounted ())
      ∧ removeFile stockConfig treeDriver (str "/MAIN.GCO") (release (mounted ()))
          = release (mounted ())
      ∧ startFileprint stockConfig (release (mounted ())) = release (mounted ())
      ∧ openLogFile stockConfig treeDriver (str "LOG.TXT") (release (mounted ()))
          = { release (mounted ()) with logging := true } :=
  ⟨rfl, C13_card_not_usable stockConfig treeDriver (str "/MAIN.GCO") true false
      (release (mounted ())) rfl |>.1,
    C13_card_not_usable stockConfig treeDriver (str "/MAIN.GCO") true false
      (release (mounted ())) rfl |>.2.1,
    C13_card_not_usable stockConfig treeDriver (str "/MAIN.GCO") true false
      (release (mounted ())) rfl |>.2.2.1,
    C13_card_not_usable stockConfig treeDriver (str "LOG.TXT") true false
      (release (mounted ())) rfl |>.2.2.2⟩

/-! ## Progress -/

/-- C14, the claim as worded fails: the value returned is a `uint8_t`. After
`setIndex(30000)` on the open 1000-byte file the quotient `30000 / 10` is 3000, and
`percentDone()` returns 3000 mod 256 = 184. -/
theorem C14_counterexample_quotient_cut_to_8_bits :
    (setIndex treeDriver 30000 (reading "/MAIN.GCO" 0)).file.isSome = true
      ∧ (setIndex treeDriver 30000 (reading "/MAIN.GCO" 0)).filesize = 1000
      ∧ (setIndex treeDriver 30000 (reading "/MAIN.GCO" 0)).sdpos = 30000
      ∧ 30000 / ((1000 + 99) / 100) = 3000
      ∧ percentDone (setIndex treeDriver 30000 (reading "/MAIN.GCO" 0)) = some 184 := by
  decide

/-- C14, amended: for an open file with `0 < filesize` and `filesize + 99 < 2 ^ 32`,
`percentDone()` returns `sdpos / ((filesize + 99) / 100)` modulo 256; this is the quotient
itself, and at most 100, when `sdpos <= filesize`. It returns 0 when no file is open or
the size is 0. -/
theorem C14_percentDone (s : State V) :
    (s.file.isSome = true → 0 < s.filesize → s.filesize + 99 < 2 ^ 32 →
        percentDone s = some (s.sdpos / ((s.filesize + 99) / 100) % 2 ^ 8)
          ∧ (s.sdpos ≤ s.filesize →
              percentDone s = some (s.sdpos / ((s.filesize + 99) / 100))
                ∧ s.sdpos / ((s.filesize + 99) / 100) ≤ 100))
      ∧ ((s.file.isSome = false ∨ s.filesize = 0) → percentDone s = some 0) := by
  constructor
  · intro hf h0 hlt
    have hd : 0 < (s.filesize + 99) / 100 := Nat.div_pos (by omega) (by omega)
    have e : percentDone s = some (s.sdpos / ((s.filesize + 99) / 100) % 2 ^ 8) := by
      unfold percentDone isFileOpen
      have hne : s.filesize ≠ 0 := by omega
      simp only [hf, Bool.true_and, bne_iff_ne, ne_eq, hne, not_false_eq_true, decide_True,
        if_true, Nat.mod_eq_of_lt hlt]
      rw [if_neg (by omega)]
    refine ⟨e, fun hle => ?_⟩
    have hq : s.sdpos / ((s.filesize + 99) / 100) ≤ 100 := by
      apply Nat.div_le_of_le_mul
      have := Nat.div_add_mod (s.filesize + 99) 100
      have := Nat.mod_lt (s.filesize + 99) (by omega : 100 > 0)
      omega
    exact ⟨by rw [e, Nat.mod_eq_of_lt (by omega)], hq⟩
  · intro h
    unfold percentDone isFileOpen
    rcases h with h | h
    · simp [h]
    · simp [h]

/-- C14 at the 250-byte file read up to offset 100: 100 / 3 = 33. -/
theorem C14_percentDone_witness :
    percentDone ({ mounted () with file := some 2, filesize := 250, sdpos := 100 } : State Unit)
      = some 33 :=
  ((C14_percentDone ({ mounted () with file := some 2, filesize := 250, sdpos := 100 } :
      State Unit)).1 rfl (by decide) (by decide)).2 (by decide) |>.1

/-! ## Lookup by display position -/

/-- C15: `getfilename_sorted(p)` is `getfilename(sort_order[p])` when `p < sort_count`
(and, with `SORT_ONOFF`, sorting is on), and `getfilename(p)` when `p >= sort_count` (and
when sorting is off). -/
theorem C15_getfilename_sorted (cfg : Config) (drv : SdDriver V) (p : Nat) (s : State V) :
    ((cfg.SORT_ONOFF = true → s.sort_alpha = true) → p < s.sort_count →
        getfilename_sorted cfg drv p s = getfilename cfg drv (s.sort_order p) none s)
      ∧ (s.sort_count ≤ p →
          getfilename_sorted cfg drv p s = getfilename cfg drv p none s)
      ∧ (cfg.SORT_ONOFF = true → s.sort_alpha = false →
          getfilename_sorted cfg drv p s = getfilename cfg drv p none s) := by
  refine ⟨fun hen hp => ?_, fun hp => ?_, fun h1 h2 => ?_⟩
  · unfold getfilename_sorted
    by_cases ho : cfg.SORT_ONOFF = true
    · simp [ho, hen ho, hp]
    · simp [ho, hp]
  · unfold getfilename_sorted
    have : ¬ p < s.sort_count := by omega
    simp [this]
  · unfold getfilename_sorted
    simp [h1, h2]

/-- C15 in the directory `sortDir` after `presort()`: position 0 is the raw entry 4, the
folder `ALPHA`, and position 7 is past the table and read as the raw index 7. -/
theorem C15_getfilename_sorted_witness :
    (stockConfig.SORT_ONOFF = true →
        (presort stockConfig (flatDriver sortDir) (mounted ())).sort_alpha = true)
      ∧ 0 < (presort stockConfig (flatDriver sortDir) (mounted ())).sort_count
      ∧ (presort stockConfig (flatDriver sortDir) (mounted ())).sort_order 0 = 4
      ∧ getfilename_sorted stockConfig (flatDriver sortDir) 0
          (presort stockConfig (flatDriver sortDir) (mounted ()))
        = getfilename stockConfig (flatDriver sortDir) 4 none
          (presort stockConfig (flatDriver sortDir) (mounted ()))
      ∧ (getfilename_sorted stockConfig (flatDriver sortDir) 0
          (presort stockConfig (flatDriver sortDir) (mounted ()))).filename = str "ALPHA"
      ∧ getfilename_sorted stockConfig (flatDriver sortDir) 7
          (presort stockConfig (flatDriver sortDir) (mounted ()))
        = getfilename stockConfig (flatDriver sortDir) 7 none
          (presort stockConfig (flatDriver sortDir) (mounted ())) :=
  have h := C15_getfilename_sorted stockConfig (flatDriver sortDir) 0
    (presort stockConfig (flatDriver sortDir) (mounted ()))
  have h7 := C15_getfilename_sorted stockConfig (flatDriver sortDir) 7
    (presort stockConfig (flatDriver sortDir) (mounted ()))
  ⟨by decide, by decide, by decide, (h.1 (by decide) (by decide)).trans (by rw [show
      (presort stockConfig (flatDriver sortDir) (mounted ())).sort_order 0 = 4 by decide]),
    by decide, h7.2.1 (by decide)⟩

/-! ## The end of the outermost file -/

/-- What `createFilename` stores for the name bytes from `i` on, while they are before
the extension. -/
theorem createFilenameFrom_base (p : dir_t) (n : Nat) :
    ∀ (i m : Nat), i + n ≤ 8 →
      createFilenameFrom p (n + m) i
        = ((List.range' i n).map p.nameAt).filter (fun c => c != 32)
          ++ createFilenameFrom p m (i + n) := by
  induction n with
  | zero => intro i m _; simp
  | succ n ih =>
    intro i m h
    have e : n + 1 + m = (n + m) + 1 := by omega
    rw [e, createFilenameFrom]
    have hi : i ≠ 8 := by omega
    rw [ih (i + 1) m (by omega)]
    have e2 : i + 1 + n = i + (n + 1) := by omega
    by_cases hs : p.nameAt i = 32
    · simp [hs, List.range'_succ, e2]
    · simp [hs, hi, List.range'_succ, e2]

/-- What `createFilename` stores for the name bytes from `i` on, after the first byte of
the extension. -/
theorem createFilenameFrom_ext (p : dir_t) (n : Nat) :
    ∀ (i : Nat), 8 < i →
      createFilenameFrom p n i
        = ((List.range' i n).map p.nameAt).filter (fun c => c != 32) := by
  induction n with
  | zero => intro i _; simp [createFilenameFrom]
  | succ n ih =>
    intro i h
    rw [createFilenameFrom]
    have hi : i ≠ 8 := by omega
    rw [ih (i + 1) (by omega)]
    by_cases hs : p.nameAt i = 32
    · simp [hs, List.range'_succ]
    · simp [hs, hi, List.range'_succ]

theorem map_nameAt_range (p : dir_t) (i n : Nat) (h : i + n ≤ p.name.length) :
    (List.range' i n).map p.nameAt = (p.name.drop i).take n := by
  apply List.ext_getElem?
  intro k
  by_cases hk : k < n
  · simp only [List.getElem?_map, List.getElem?_range' _ _ hk, Option.map_some',
      List.getElem?_take_of_lt hk, List.getElem?_drop, dir_t.nameAt, List.getD_eq_getElem?_getD]
    rw [List.getElem?_eq_getElem (by omega)]
    simp
  · rw [List.getElem?_eq_none (by simp; omega), List.getElem?_eq_none (by simp; omega)]

/-- The bytes that `createFilename` stores before the NUL, for a name of 11 bytes. -/
theorem createFilenameFrom_eq (p : dir_t) (h : p.name.length = 11) :
    createFilenameFrom p 11 0
      = (p.name.take 8).filter (fun c => c != 32)
        ++ (if p.nameAt 8 = 32 then [] else [46])
        ++ (p.name.drop 8).filter (fun c => c != 32) := by
  have e1 := createFilenameFrom_base p 8 0 3 (by omega)
  have e2 := createFilenameFrom_ext p 2 9 (by omega)
  have m1 := map_nameAt_range p 0 8 (by omega)
  have m2 := map_nameAt_range p 9 2 (by omega)
  have hd : p.name.drop 8 = p.nameAt 8 :: (p.name.drop 9).take 2 := by
    rw [List.take_of_length_le (by simp; omega), dir_t.nameAt, List.getD_eq_getElem?_getD,
      List.getElem?_eq_getElem (by omega), Option.getD_some]
    exact List.drop_eq_getElem_cons (by omega)
  simp only [Nat.zero_add] at e1
  rw [show (11 : Nat) = 8 + 3 from rfl, e1, m1, List.drop_zero]
  rw [createFilenameFrom, e2, m2, hd]
  by_cases hs : p.nameAt 8 = 32
  · simp [hs]
  · simp [hs]

theorem cstr_of_no_nul (l : List Nat) (h : 0 ∉ l) : cstr l = l := by
  unfold cstr
  rw [List.takeWhile_eq_self_iff]
  intro c hc
  have : c ≠ 0 := fun e => h (e ▸ hc)
  simpa using this

theorem cstr_length_le (l : List Nat) : (cstr l).length ≤ l.length := by
  unfold cstr
  exact (List.takeWhile_sublist _).length_le

theorem filter_padded (b : CStr) (k : Nat) (h : 32 ∉ b) :
    (b ++ List.replicate k 32).filter (fun c => c != 32) = b := by
  rw [List.filter_append, List.filter_eq_self.2, List.filter_eq_nil_iff.2, List.append_nil]
  · intro c hc
    simp [List.eq_of_mem_replicate hc]
  · intro c hc
    have : c ≠ 32 := fun e => h (e ▸ hc)
    simpa using this

/-- C17, the claim as worded fails in two ways: every space is dropped, not only the
padding, so that the base `A B` gives `AB`; and the dot is written exactly when the first
byte of the extension is not a space, so that the extension ` CO`, which is not blank,
gives `PARTCO` without a dot. -/
theorem C17_counterexample_spaces_and_dot :
    createFilename (dir_t.mk (str "A B     GCO") 0x20) = str "AB.GCO"
      ∧ createFilename (dir_t.mk (str "PART     CO") 0x20) = str "PARTCO" := by
  decide

/-- C17, amended: for a raw name of 11 bytes `createFilename` yields the first 8 bytes
without their spaces, then a dot exactly when the byte 8 is not a space, then the last 3
bytes without their spaces, up to the first NUL. The result has no space and at most 12
chars. For a name whose base and extension are padded at the end only it is the base,
followed by the dot and the extension when the extension is not blank. -/
theorem C17_createFilename (p : dir_t) (h : p.name.length = 11) :
    createFilename p
        = cstr ((p.name.take 8).filter (fun c => c != 32)
            ++ (if p.nameAt 8 = 32 then [] else [46])
            ++ (p.name.drop 8).filter (fun c => c != 32))
      ∧ 32 ∉ createFilename p ∧ (createFilename p).length ≤ 12
      ∧ ∀ b e : CStr, b.length ≤ 8 → e.length ≤ 3 → 32 ∉ b → 32 ∉ e → 0 ∉ b → 0 ∉ e →
          p.name = b ++ List.replicate (8 - b.length) 32 ++ (e ++ List.replicate (3 - e.length) 32) →
          createFilename p = b ++ (if e = [] then [] else 46 :: e) := by
  have e0 : createFilename p
      = cstr ((p.name.take 8).filter (fun c => c != 32)
          ++ (if p.nameAt 8 = 32 then [] else [46])
          ++ (p.name.drop 8).filter (fun c => c != 32)) := by
    unfold createFilename
    rw [createFilenameFrom_eq p h]
  refine ⟨e0, ?_, ?_, ?_⟩
  · rw [e0]
    intro hm
    have hm2 := (List.takeWhile_sublist _).subset hm
    simp only [List.mem_append, List.mem_filter, bne_self_eq_false, Bool.false_eq_true,
      and_false, false_or, or_false] at hm2
    split at hm2 <;> simp at hm2
  · rw [e0]
    refine le_trans (cstr_length_le _) ?_
    simp only [List.length_append]
    have h1 := List.length_filter_le (fun c => c != 32) (p.name.take 8)
    have h2 := List.length_filter_le (fun c => c != 32) (p.name.drop 8)
    have h3 : (if p.nameAt 8 = 32 then ([] : List Nat) else [46]).length ≤ 1 := by
      split <;> simp
    simp only [List.length_take, List.length_drop, h] at h1 h2
    omega
  · intro b e hb he sb se zb ze hn
    have hbl : (b ++ List.replicate (8 - b.length) 32).length = 8 := by
      simp only [List.length_append, List.length_replicate]; omega
    have t8 : p.name.take 8 = b ++ List.replicate (8 - b.length) 32 := by
      rw [hn, List.take_append_of_le_length (by omega), List.take_of_length_le (by omega)]
    have d8 : p.name.drop 8 = e ++ List.replicate (3 - e.length) 32 := by
      rw [hn, List.drop_append_of_le_length (by omega), List.drop_of_length_le (by omega),
        List.nil_append]
    have n8 : p.nameAt 8 = 32 ↔ e = [] := by
      have : p.nameAt 8 = (p.name.drop 8).getD 0 0 := by
        simp [dir_t.nameAt, List.getD_eq_getElem?_getD, List.getElem?_drop]
      rw [this, d8]
      cases e with
      | nil => simp
      | cons c cs =>
        have : c ≠ 32 := fun h0 => se (by simp [h0])
        simp [this]
    rw [e0, t8, d8, filter_padded b _ sb, filter_padded e _ se]
    by_cases hn0 : e = []
    · subst hn0
      simp only [n8.2, if_true, List.append_nil]
      exact cstr_of_no_nul b zb
    · simp only [n8, hn0, if_false]
      rw [cstr_of_no_nul]
      · simp
      · simp only [List.mem_append, List.mem_cons, List.mem_singleton, not_or]
        exact ⟨⟨zb, by decide, by simp⟩, ze⟩

/-- C17 at the raw name `PART    GCO`: the display name is `PART.GCO`. -/
theorem C17_createFilename_witness :
    (dir_t.mk (str "PART    GCO") 0x20).name.length = 11
      ∧ createFilename (dir_t.mk (str "PART    GCO") 0x20) = str "PART.GCO" :=
  ⟨by decide,
    ((C17_createFilename (dir_t.mk (str "PART    GCO") 0x20) (by decide)).2.2.2
      (str "PART") (str "GCO") (by decide) (by decide) (by decide) (by decide) (by decide)
      (by decide) (by decide)).trans (by decide)⟩

theorem strchr_first (a r : CStr) (c : Nat) (h : c ∉ a) :
    strchr (a ++ c :: r) c = some a.length := by
  unfold strchr
  have hm : c ∈ a ++ c :: r := by simp
  rw [if_pos hm]
  congr 1
  induction a with
  | nil => simp
  | cons x xs ih =>
    have hx : x ≠ c := fun e => h (by simp [e])
    have hxs : c ∉ xs := fun e => h (by simp [e])
    simp only [List.cons_append, List.indexOf_cons, List.length_cons]
    rw [show (x == c) = false from by simpa using hx]
    simp only [cond_false]
    rw [ih hxs (by simp)]

theorem strchr_none (a : CStr) (c : Nat) (h : c ∉ a) : strchr a c = none := by
  unfold strchr
  rw [if_neg h]

/-- C18, the code differs from the claim for a line without line number whose text has
the letter `N`: `strchr(buf, 'N')` finds that letter. For `M117 FAN ON` there is no `*`
after it, and the source writes through `NULL - 1`; for `M117 SCAN 1*2` the text written
is `1` and the line end, not the whole line. -/
theorem C18_letter_N_in_payload :
    write_command (str "M117 FAN ON") = none
      ∧ write_command (str "M117 SCAN 1*2") = some (str "1" ++ [13, 10]) := by
  decide

/-- X2, `write_command` on the lines it is written for: for a line `N<number>
<payload>*<checksum>` (no space and no `*` in the number, no `*` and no NUL in the payload)
the text written is the payload followed by CR LF, and for a line without the letter `N`
(and without NUL) it is the whole line followed by CR LF. -/
theorem X2_write_command_payload (num payload chk line : CStr) :
    (32 ∉ num → 42 ∉ num → 42 ∉ payload → 0 ∉ payload →
        write_command (78 :: num ++ 32 :: payload ++ 42 :: chk) = some (payload ++ [13, 10]))
      ∧ (78 ∉ line → 0 ∉ line → write_command line = some (line ++ [13, 10])) := by
  constructor
  · intro h1 h2 h3 h4
    have s0 : strchr (78 :: num ++ 32 :: payload ++ 42 :: chk) 78 = some 0 := by
      simp [strchr]
    have s1 : strchr (78 :: num ++ 32 :: payload ++ 42 :: chk) 32 = some (num.length + 1) := by
      have := strchr_first (78 :: num) (payload ++ 42 :: chk) 32 (by simp [h1])
      simpa using this
    have s2 : strchr (78 :: num ++ 32 :: payload ++ 42 :: chk) 42
        = some (num.length + 1 + 1 + payload.length) := by
      have := strchr_first (78 :: num ++ 32 :: payload) chk 42 (by simp [h2, h3])
      simp only [List.length_append, List.length_cons, List.append_assoc, List.cons_append]
        at this ⊢
      rw [this]
      congr 1
      omega
    unfold write_command
    simp only [s0, List.drop_zero, s1, s2, Nat.zero_add]
    congr 1
    have hA : List.take (num.length + 1 + 1 + payload.length - 1 + 1)
        ((78 :: num ++ 32 :: payload ++ 42 :: chk) ++ [0]) = 78 :: num ++ 32 :: payload := by
      have e2 : (78 :: num ++ 32 :: payload ++ 42 :: chk) ++ [0]
          = (78 :: num ++ 32 :: payload) ++ (42 :: chk ++ [0]) := by simp
      rw [e2]
      exact List.take_left' (by simp only [List.length_append, List.length_cons]; omega)
    rw [hA]
    generalize List.drop (num.length + 1 + 1 + payload.length - 1 + 4) _ = T
    have hB : 78 :: num ++ 32 :: payload ++ [13, 10, 0] ++ T
        = (78 :: num ++ [32]) ++ (payload ++ [13, 10] ++ 0 :: T) := by simp
    rw [hB, List.drop_left' (by simp)]
    unfold cstr
    rw [List.takeWhile_append_of_pos, List.takeWhile_cons_of_neg (by simp), List.append_nil]
    intro c hc
    simp only [List.mem_append, List.mem_cons, List.mem_singleton, List.not_mem_nil,
      or_false] at hc
    rcases hc with hc | hc | hc
    · have : c ≠ 0 := fun e => h4 (e ▸ hc)
      simpa using this
    · simp [hc]
    · simp [hc]
  · intro h1 h2
    unfold write_command
    rw [strchr_none line 78 h1]
    simp only []
    congr 1
    unfold cstr
    rw [show line ++ [13, 10, 0] = (line ++ [13, 10]) ++ [0] by simp,
      List.takeWhile_append_of_pos, List.takeWhile_cons_of_neg (by simp), List.append_nil]
    intro c hc
    simp only [List.mem_append, List.mem_cons, List.mem_singleton, List.not_mem_nil,
      or_false] at hc
    rcases hc with hc | hc | hc
    · have : c ≠ 0 := fun e => h2 (e ▸ hc)
      simpa using this
    · simp [hc]
    · simp [hc]

/-- X2 at the lines `N12 G1 X10*33` and `G28`. -/
theorem X2_write_command_payload_witness :
    78 :: str "12" ++ 32 :: str "G1 X10" ++ 42 :: str "33" = str "N12 G1 X10*33"
      ∧ write_command (str "N12 G1 X10*33") = some (str "G1 X10" ++ [13, 10])
      ∧ write_command (str "G28") = some (str "G28" ++ [13, 10]) :=
  have h := X2_write_command_payload (str "12") (str "G1 X10") (str "33") (str "G28")
  ⟨by decide, h.1 (by decide) (by decide) (by decide) (by decide),
    h.2 (by decide) (by decide)⟩

/-! ## The sort is stable -/

/-- C20, the claim as worded fails: the folder `TRASHE~1` of `trashDriver` is hidden and
has a long name that begins with a dot; `ls()` opens it and prints the file in it. -/
theorem C20_counterexample_hidden_folder_listed :
    (ls trashDriver 3 (mounted ())).sdlog
        = [SdCall.openCall (some 0) (str "TRASHE~1") OFlag.O_READ]
      ∧ (ls trashDriver 3 (mounted ())).serial
        = [SerialLine.listed (str "/TRASHE~1/OLD.GCO"), SerialLine.listed (str "MAIN.GCO")] := by
  decide

/-- C20, amended: in print mode one round of the loop of `lsDive` on an entry with the
folder attribute, whatever its first byte, its long name and its hidden bit, opens the
folder by its short name and dives into what was opened (with the report
`cantOpenSubdir` when it did not open); the skip rules are applied to the entries without
the folder attribute only: a deleted or hidden one, or one whose name or long name begins
with a dot, prints no line. -/
theorem C20_print_mode_round (drv : SdDriver V) (dive : CStr → SdFile → State V → State V)
    (prepend : CStr) (parent : SdFile) (mtch : Option CStr) (e : DirEntry)
    (rest : List DirEntry) (pos cnt : Nat) (s : State V)
    (ha : s.lsAction = LsAction.LS_SerialPrint) :
    (DIR_IS_SUBDIR e.p = true →
        lsDiveLoop drv dive prepend parent mtch (e :: rest) pos cnt s
          = lsDiveLoop drv dive prepend parent mtch rest (pos + 1) cnt
              (dive ((if char0 prepend = 0 then str "/" else cstr prepend)
                  ++ createFilename e.p ++ str "/")
                (drv.sdOpen s.vol none parent (createFilename e.p) OFlag.O_READ).1
                { s with
                  longFilename := e.longFilename
                  vol := (drv.sdOpen s.vol none parent (createFilename e.p) OFlag.O_READ).2
                  sdlog := s.sdlog
                    ++ [SdCall.openCall parent (createFilename e.p) OFlag.O_READ]
                  serial := s.serial
                    ++ (if (drv.sdOpen s.vol none parent (createFilename e.p)
                          OFlag.O_READ).1.isNone
                        then [SerialLine.cantOpenSubdir (createFilename e.p)] else []) }))
      ∧ (DIR_IS_SUBDIR e.p = false → e.p.nameAt 0 ≠ DIR_NAME_FREE →
          (e.p.nameAt 0 = DIR_NAME_DELETED ∨ e.p.nameAt 0 = 46 ∨ char0 e.longFilename = 46
            ∨ e.p.attributes &&& DIR_ATT_HIDDEN ≠ 0) →
          lsDiveLoop drv dive prepend parent mtch (e :: rest) pos cnt s
            = lsDiveLoop drv dive prepend parent mtch rest (pos + 1) cnt
                { s with longFilename := e.longFilename }) := by
  constructor
  · intro hd
    rw [lsDiveLoop]
    simp only [hd, ha, Bool.true_and, bne_iff_ne, ne_eq, reduceCtorEq, not_false_eq_true,
      decide_True, Bool.and_self, if_true]
    cases (drv.sdOpen s.vol none parent (createFilename e.p) OFlag.O_READ).1 <;> simp
  · intro hd hfree hskip
    rw [lsDiveLoop]
    simp only [hd, Bool.false_and, Bool.false_eq_true, if_false, hfree]
    by_cases h1 : e.p.nameAt 0 = DIR_NAME_DELETED ∨ e.p.nameAt 0 = 46
    · have : (decide (e.p.nameAt 0 = DIR_NAME_DELETED) || decide (e.p.nameAt 0 = 46)) = true := by
        simpa using h1
      simp only [this, if_true]
    · have : (decide (e.p.nameAt 0 = DIR_NAME_DELETED) || decide (e.p.nameAt 0 = 46)) = false := by
        simpa using h1
      simp only [this, Bool.false_eq_true, if_false]
      by_cases h2 : char0 e.longFilename = 46
      · simp only [h2, if_true]
      · simp only [h2, if_false]
        have h3 : e.p.attributes &&& DIR_ATT_HIDDEN ≠ 0 := by
          rcases hskip with h | h | h | h
          · exact absurd (Or.inl h) h1
          · exact absurd (Or.inr h) h1
          · exact absurd h h2
          · exact h
        simp [h3]

/-- C20 at the first entry of the root directory of `trashDriver`, the hidden folder. -/
theorem C20_print_mode_round_witness :
    ({ mounted () with lsAction := LsAction.LS_SerialPrint } : State Unit).lsAction
        = LsAction.LS_SerialPrint
      ∧ DIR_IS_SUBDIR (dir_t.mk (str "TRASHE~1   ") 0x12) = true
      ∧ (lsDiveLoop trashDriver (fun _ _ s1 => s1) [] (some 0) none
          [DirEntry.mk (dir_t.mk (str "TRASHE~1   ") 0x12) (str ".Trashes")] 0 0
          { mounted () with lsAction := LsAction.LS_SerialPrint }).1.sdlog
        = [SdCall.openCall (some 0) (str "TRASHE~1") OFlag.O_READ] :=
  ⟨rfl, by decide,
    (congrArg (fun r => r.1.sdlog)
      ((C20_print_mode_round trashDriver (fun _ _ s1 => s1) [] (some 0) none
        (DirEntry.mk (dir_t.mk (str "TRASHE~1   ") 0x12) (str ".Trashes")) [] 0 0
        { mounted () with lsAction := LsAction.LS_SerialPrint } rfl).1 (by decide))).trans
      (by decide)⟩

/-! ## Descending and ascending -/

/-- C22, the code differs from the claim: `setroot()` does not touch `workDirDepth`. After
two `chdir("SUB")` from the root and `setroot()` the working directory is the root and the
depth is still 2; the `updir()` that follows pops the folder 1 and makes it the working
directory. -/
theorem C22_counterexample_setroot_keeps_depth :
    ((chdir stockConfig deepDriver (str "SUB"))^[2] (mounted ())).workDirDepth = 2
      ∧ (setroot stockConfig deepDriver
          ((chdir stockConfig deepDriver (str "SUB"))^[2] (mounted ()))).workDir
          = (mounted ()).root
      ∧ (setroot stockConfig deepDriver
          ((chdir stockConfig deepDriver (str "SUB"))^[2] (mounted ()))).workDirDepth = 2
      ∧ (updir stockConfig deepDriver (setroot stockConfig deepDriver
          ((chdir stockConfig deepDriver (str "SUB"))^[2] (mounted ())))).workDir = some 1
      ∧ (updir stockConfig deepDriver (setroot stockConfig deepDriver
          ((chdir stockConfig deepDriver (str "SUB"))^[2] (mounted ())))).workDirDepth = 1 := by
  decide

/-- C22, what the code does: `setroot()` makes the root the working directory and leaves
the depth and the stack of parents as they are, so that at a depth above 0 the `updir()`
that follows pops the top of the stack. -/
theorem C22_setroot_keeps_depth (cfg : Config) (drv : SdDriver V) (s : State V)
    (hd : 0 < s.workDirDepth) :
    (setroot cfg drv s).workDir = s.root
      ∧ (setroot cfg drv s).workDirDepth = s.workDirDepth
      ∧ (setroot cfg drv s).workDirParents = s.workDirParents
      ∧ (updir cfg drv (setroot cfg drv s)).workDir = s.workDirParents (s.workDirDepth - 1)
      ∧ (updir cfg drv (setroot cfg drv s)).workDirDepth = s.workDirDepth - 1 := by
  have e1 : (setroot cfg drv s).workDir = s.root := by
    unfold setroot; rw [framed_workDir (presortIfEnabled_framed cfg drv _)]
  have e2 : (setroot cfg drv s).workDirDepth = s.workDirDepth := by
    unfold setroot; rw [framed_depth (presortIfEnabled_framed cfg drv _)]
  have e3 : (setroot cfg drv s).workDirParents = s.workDirParents := by
    unfold setroot; rw [framed_parents (presortIfEnabled_framed cfg drv _)]
  refine ⟨e1, e2, e3, ?_⟩
  unfold updir
  rw [if_pos (by omega), framed_workDir (presortIfEnabled_framed cfg drv _),
    framed_depth (presortIfEnabled_framed cfg drv _)]
  simp only [e2, e3, and_self]

/-- C22 at the depth 2 reached by two `chdir("SUB")`. -/
theorem C22_setroot_keeps_depth_witness :
    0 < ((chdir stockConfig deepDriver (str "SUB"))^[2] (mounted ())).workDirDepth
      ∧ (setroot stockConfig deepDriver
          ((chdir stockConfig deepDriver (str "SUB"))^[2] (mounted ()))).workDirDepth
        = ((chdir stockConfig deepDriver (str "SUB"))^[2] (mounted ())).workDirDepth :=
  ⟨by decide,
    (C22_setroot_keeps_depth stockConfig deepDriver
      ((chdir stockConfig deepDriver (str "SUB"))^[2] (mounted ())) (by decide)).2.1⟩

/-! ## The divisor of `percentDone` -/

/-- C24, the code differs from the claim for the sizes from `2 ^ 32 - 99` on: for an open
file of `2 ^ 32 - 1` bytes the sum `filesize + 99` wraps to 98, the divisor `98 / 100` is
0, and `percentDone()` divides by zero. -/
theorem C24_divisor_zero_at_max_size :
    (4294967295 + 99) % 2 ^ 32 / 100 = 0
      ∧ percentDone ({ mounted () with file := some 2, filesize := 4294967295, sdpos := 0 } :
          State Unit) = none := by
  decide

/-- X3, the divisor of `percentDone` for a size that does not wrap: for an open file with
`0 < filesize`, `filesize + 99 < 2 ^ 32` and `sdpos <= filesize` the divisor is not 0 and
the value returned is at most 100, which the cast to `uint8_t` keeps. -/
theorem X3_percentDone_in_range (s : State V) (hf : s.file.isSome = true)
    (h0 : 0 < s.filesize) (hlt : s.filesize + 99 < 2 ^ 32) (hle : s.sdpos ≤ s.filesize) :
    0 < (s.filesize + 99) % 2 ^ 32 / 100
      ∧ ∃ v, percentDone s = some v ∧ v ≤ 100 ∧ v % 2 ^ 8 = v
          ∧ v = s.sdpos / ((s.filesize + 99) / 100) := by
  have hd : 0 < (s.filesize + 99) / 100 := Nat.div_pos (by omega) (by omega)
  have hq : s.sdpos / ((s.filesize + 99) / 100) ≤ 100 := by
    apply Nat.div_le_of_le_mul
    have := Nat.div_add_mod (s.filesize + 99) 100
    have := Nat.mod_lt (s.filesize + 99) (by omega : 100 > 0)
    omega
  refine ⟨by rw [Nat.mod_eq_of_lt hlt]; exact hd, _, ?_, hq, Nat.mod_eq_of_lt (by omega), rfl⟩
  unfold percentDone isFileOpen
  have hne : s.filesize ≠ 0 := by omega
  simp only [hf, Bool.true_and, bne_iff_ne, ne_eq, hne, not_false_eq_true, decide_True,
    if_true, Nat.mod_eq_of_lt hlt]
  rw [if_neg (by omega), Nat.mod_eq_of_lt (by omega)]

/-- X3 at the 250-byte file read up to offset 250: 250 / 3 = 83. -/
theorem X3_percentDone_in_range_witness :
    percentDone ({ mounted () with file := some 2, filesize := 250, sdpos := 250 } :
        State Unit) = some 83 := by
  obtain ⟨_, v, h1, _, _, h4⟩ := X3_percentDone_in_range
    ({ mounted () with file := some 2, filesize := 250, sdpos := 250 } : State Unit) rfl
    (by decide) (by decide) (by decide)
  rw [h1, h4]
  rfl

/-! ## Autostart -/

theorem ELAPSED_iff (now soon : Nat) (hn : now < 2 ^ 31) (hs : soon < 2 ^ 31) :
    ELAPSED now soon = decide (soon ≤ now) := by
  unfold ELAPSED
  rw [Nat.mod_eq_of_lt (by omega : now < 2 ^ 32), Nat.mod_eq_of_lt (by omega : soon < 2 ^ 32)]
  by_cases h : soon ≤ now
  · have e : now + 2 ^ 32 - soon = (now - soon) + 2 ^ 32 := by omega
    rw [e, Nat.add_mod_right, Nat.mod_eq_of_lt (by omega)]
    simp only [h, decide_True, decide_eq_true_eq]
    omega
  · rw [Nat.mod_eq_of_lt (by omega)]
    simp only [h, decide_False, decide_eq_false_iff_not]
    omega

theorem autostartScan_still (autoname : CStr) (es : List DirEntry) :
    ∀ (s : State V) (found : Bool),
      (autostartScan autoname es s found).1.autostart_stilltocheck
        = s.autostart_stilltocheck := by
  induction es with
  | nil => intro s found; rfl
  | cons e rest ih =>
    intro s found
    rw [autostartScan]
    split
    · exact (ih _ _).trans rfl
    · exact ih _ _

theorem framed_still {s t : State V} (h : Framed s t) :
    t.autostart_stilltocheck = s.autostart_stilltocheck := by
  obtain ⟨_, _, _, _, _, _, _, _, _, _, _, rfl⟩ := h
  rfl

/-- C23, the code differs from the claim: the test of the time is the other way round.
On the card of `autoDriver`, 1 second after the construction the unforced call runs the
scan, queues the start of `auto0.g` and clears `autostart_stilltocheck`; 6 seconds after
the construction, past `next_autostart_ms`, the unforced call does nothing. -/
theorem C23_counterexample_autostart_not_delayed :
    (mounted ()).next_autostart_ms = 5000 ∧ (mounted ()).autostart_stilltocheck = true
      ∧ (checkautostart stockConfig autoDriver false 1000 (some 0)
          (mounted ())).autostart_stilltocheck = false
      ∧ (checkautostart stockConfig autoDriver false 1000 (some 0) (mounted ())).queue
          = [str "M23 auto0.g", str "M24"]
      ∧ checkautostart stockConfig autoDriver false 6000 (some 0) (mounted ()) = mounted () := by
  refine ⟨rfl, rfl, by decide, by decide, ?_⟩
  unfold checkautostart
  rw [if_pos (by decide)]

/-- C23, what the code does, for times below `2 ^ 31`: an unforced `checkautostart` at a
time `now >= next_autostart_ms` returns the state as it is, and one at a time
`now < next_autostart_ms` with `autostart_stilltocheck` set goes on and clears
`autostart_stilltocheck`. -/
theorem C23_autostart_window (cfg : Config) (drv : SdDriver V) (now : Nat)
    (mount : Option Nat) (s : State V) (hn : now < 2 ^ 31) (hs : s.next_autostart_ms < 2 ^ 31) :
    (s.next_autostart_ms ≤ now → checkautostart cfg drv false now mount s = s)
      ∧ (now < s.next_autostart_ms → s.autostart_stilltocheck = true →
          (checkautostart cfg drv false now mount s).autostart_stilltocheck = false) := by
  have he := ELAPSED_iff now s.next_autostart_ms hn hs
  constructor
  · intro h
    unfold checkautostart
    rw [he]
    simp [h]
  · intro h hst
    have hnot : ¬ s.next_autostart_ms ≤ now := by omega
    have h2 : (if ! ({ s with autostart_stilltocheck := false } : State V).cardOK then
          initsd cfg drv mount { s with autostart_stilltocheck := false }
        else { s with autostart_stilltocheck := false }).autostart_stilltocheck = false := by
      split
      · unfold initsd
        rw [framed_still (presortIfEnabled_framed cfg drv _)]
        cases mount <;> rfl
      · rfl
    have hg : (!false && (!s.autostart_stilltocheck || ELAPSED now s.next_autostart_ms))
        = false := by
      rw [he, hst]; simp [hnot]
    unfold checkautostart
    rw [if_neg (by rw [hg]; exact Bool.false_ne_true)]
    simp only []
    generalize (if ! ({ s with autostart_stilltocheck := false } : State V).cardOK then
          initsd cfg drv mount { s with autostart_stilltocheck := false }
        else { s with autostart_stilltocheck := false }) = s2 at h2 ⊢
    split
    · exact h2
    · split
      · exact h2
      · split
        · exact (autostartScan_still _ _ _ _).trans h2
        · exact (autostartScan_still _ _ _ _).trans h2

/-- C23 at the state after the construction: one second after it, and six. -/
theorem C23_autostart_window_witness :
    (1000 < (mounted ()).next_autostart_ms ∧ (mounted ()).autostart_stilltocheck = true
        ∧ (checkautostart stockConfig autoDriver false 1000 (some 0)
            (mounted ())).autostart_stilltocheck = false)
      ∧ ((mounted ()).next_autostart_ms ≤ 6000
        ∧ checkautostart stockConfig autoDriver false 6000 (some 0) (mounted ())
            = mounted ()) :=
  ⟨⟨by decide, rfl,
      (C23_autostart_window stockConfig autoDriver 1000 (some 0) (mounted ()) (by decide)
        (by decide)).2 (by decide) rfl⟩,
    ⟨by decide,
      (C23_autostart_window stockConfig autoDriver 6000 (some 0) (mounted ()) (by decide)
        (by decide)).1 (by decide)⟩⟩

/-! ## The sort table is the same in the three tiers -/

end CardReader
